import Mathlib

/-!
Verification development for the SOS origin middleware (`sos/origin.py`).

The source is shallowly embedded: pure helpers become Lean functions on
`String`/`Nat`/`Int`; the WSGI handlers become pure functions from the
request data plus oracles for the backing store and the cache to a response
value together with an explicit log of the backend calls and cache
operations they issue.  Machine words inside the hash functions are `Nat`
with explicit reduction `% 2 ^ 32`.  Fallible code returns `Except`/`Option`.
-/

set_option maxRecDepth 10000

namespace SOS

/-! ## Byte and hex utilities -/

/-- Lowercase hex digit for a nibble, as produced by Python's `hexdigest`. -/
def hexChar (n : Nat) : Char :=
  if n < 10 then Char.ofNat (48 + n) else Char.ofNat (87 + n)

/-- Uppercase hex digit, as produced by `urllib.quote` percent-escapes. -/
def hexCharUpper (n : Nat) : Char :=
  if n < 10 then Char.ofNat (48 + n) else Char.ofNat (55 + n)

/-- Two lowercase hex digits of a byte. -/
def byteHex (b : Nat) : List Char :=
  [hexChar (b / 16 % 16), hexChar (b % 16)]

/-- Lowercase hex string of a byte list, modelling `hexdigest()`. -/
def bytesToHex (bs : List Nat) : String :=
  ⟨bs.flatMap byteHex⟩

/-- UTF-8 encoding of one character (codepoints, no surrogates in `Char`). -/
def utf8Char (c : Char) : List Nat :=
  let n := c.toNat
  if n < 0x80 then [n]
  else if n < 0x800 then [0xC0 + n / 64, 0x80 + n % 64]
  else if n < 0x10000 then [0xE0 + n / 4096, 0x80 + n / 64 % 64, 0x80 + n % 64]
  else [0xF0 + n / 0x40000, 0x80 + n / 4096 % 64, 0x80 + n / 64 % 64, 0x80 + n % 64]

/-- UTF-8 byte sequence of a string; models the Python 2 byte strings that
the middleware feeds to `md5`, `hmac` and `urllib.quote`. -/
def utf8Bytes (s : String) : List Nat :=
  s.data.flatMap utf8Char

/-- Left-rotation of a 32-bit word represented as a `Nat` below `2 ^ 32`. -/
def rotl32 (n x : Nat) : Nat :=
  ((x <<< n) % 2 ^ 32) ||| (x >>> (32 - n))

/-- 32-bit complement. -/
def not32 (x : Nat) : Nat := x ^^^ 0xFFFFFFFF

/-- Big-endian bytes of a 32-bit word. -/
def beBytes4 (n : Nat) : List Nat :=
  [n / 2 ^ 24 % 256, n / 2 ^ 16 % 256, n / 2 ^ 8 % 256, n % 256]

/-- Little-endian bytes of a 32-bit word. -/
def leBytes4 (n : Nat) : List Nat :=
  [n % 256, n / 2 ^ 8 % 256, n / 2 ^ 16 % 256, n / 2 ^ 24 % 256]

/-- Big-endian bytes of a 64-bit length field. -/
def beBytes8 (n : Nat) : List Nat :=
  [n / 2 ^ 56 % 256, n / 2 ^ 48 % 256, n / 2 ^ 40 % 256, n / 2 ^ 32 % 256,
   n / 2 ^ 24 % 256, n / 2 ^ 16 % 256, n / 2 ^ 8 % 256, n % 256]

/-- Little-endian bytes of a 64-bit length field. -/
def leBytes8 (n : Nat) : List Nat :=
  [n % 256, n / 2 ^ 8 % 256, n / 2 ^ 16 % 256, n / 2 ^ 24 % 256,
   n / 2 ^ 32 % 256, n / 2 ^ 40 % 256, n / 2 ^ 48 % 256, n / 2 ^ 56 % 256]

/-- 32-bit words from bytes, big-endian (SHA-1 message schedule). -/
def bytesToWordsBE : List Nat → List Nat
  | b0 :: b1 :: b2 :: b3 :: rest =>
    (((b0 * 256 + b1) * 256 + b2) * 256 + b3) :: bytesToWordsBE rest
  | _ => []

/-- 32-bit words from bytes, little-endian (MD5 message block). -/
def bytesToWordsLE : List Nat → List Nat
  | b0 :: b1 :: b2 :: b3 :: rest =>
    (b0 + 256 * (b1 + 256 * (b2 + 256 * b3))) :: bytesToWordsLE rest
  | _ => []

/-- Split a byte list into 64-byte blocks; the fuel is an upper bound on the
number of blocks (the caller passes the list length). -/
def chunks64 : Nat → List Nat → List (List Nat)
  | 0, _ => []
  | _ + 1, [] => []
  | fuel + 1, bs => bs.take 64 :: chunks64 fuel (bs.drop 64)

/-! ## MD5 (RFC 1321), used by `OriginBase.hash_path` and the PUT ETag -/

/-- Per-round shift amounts of MD5. -/
def md5S : List Nat :=
  [7, 12, 17, 22, 7, 12, 17, 22, 7, 12, 17, 22, 7, 12, 17, 22,
   5, 9, 14, 20, 5, 9, 14, 20, 5, 9, 14, 20, 5, 9, 14, 20,
   4, 11, 16, 23, 4, 11, 16, 23, 4, 11, 16, 23, 4, 11, 16, 23,
   6, 10, 15, 21, 6, 10, 15, 21, 6, 10, 15, 21, 6, 10, 15, 21]

/-- Per-round additive constants of MD5 (⌊2³²·|sin(i+1)|⌋). -/
def md5K : List Nat :=
  [0xd76aa478, 0xe8c7b756, 0x242070db, 0xc1bdceee, 0xf57c0faf, 0x4787c62a, 0xa8304613, 0xfd469501,
   0x698098d8, 0x8b44f7af, 0xffff5bb1, 0x895cd7be, 0x6b901122, 0xfd987193, 0xa679438e, 0x49b40821,
   0xf61e2562, 0xc040b340, 0x265e5a51, 0xe9b6c7aa, 0xd62f105d, 0x02441453, 0xd8a1e681, 0xe7d3fbc8,
   0x21e1cde6, 0xc33707d6, 0xf4d50d87, 0x455a14ed, 0xa9e3e905, 0xfcefa3f8, 0x676f02d9, 0x8d2a4c8a,
   0xfffa3942, 0x8771f681, 0x6d9d6122, 0xfde5380c, 0xa4beea44, 0x4bdecfa9, 0xf6bb4b60, 0xbebfbc70,
   0x289b7ec6, 0xeaa127fa, 0xd4ef3085, 0x04881d05, 0xd9d4d039, 0xe6db99e5, 0x1fa27cf8, 0xc4ac5665,
   0xf4292244, 0x432aff97, 0xab9423a7, 0xfc93a039, 0x655b59c3, 0x8f0ccc92, 0xffeff47d, 0x85845dd1,
   0x6fa87e4f, 0xfe2ce6e0, 0xa3014314, 0x4e0811a1, 0xf7537e82, 0xbd3af235, 0x2ad7d2bb, 0xeb86d391]

/-- One MD5 round on state `(a, b, c, d)` with the 16-word block `m`. -/
def md5Round (m : List Nat) (st : Nat × Nat × Nat × Nat) (i : Nat) :
    Nat × Nat × Nat × Nat :=
  let (a, b, c, d) := st
  let f :=
    if i < 16 then (b &&& c) ||| (not32 b &&& d)
    else if i < 32 then (d &&& b) ||| (not32 d &&& c)
    else if i < 48 then (b ^^^ c) ^^^ d
    else c ^^^ (b ||| not32 d)
  let g :=
    if i < 16 then i
    else if i < 32 then (5 * i + 1) % 16
    else if i < 48 then (3 * i + 5) % 16
    else 7 * i % 16
  let f := (((f + a) % 2 ^ 32 + md5K.getD i 0) % 2 ^ 32 + m.getD g 0) % 2 ^ 32
  (d, (b + rotl32 (md5S.getD i 0) f) % 2 ^ 32, b, c)

/-- MD5 compression of one 64-byte block into the running state. -/
def md5Block (st : Nat × Nat × Nat × Nat) (block : List Nat) :
    Nat × Nat × Nat × Nat :=
  let m := bytesToWordsLE block
  let (a0, b0, c0, d0) := st
  let (a, b, c, d) := (List.range 64).foldl (md5Round m) (a0, b0, c0, d0)
  ((a0 + a) % 2 ^ 32, (b0 + b) % 2 ^ 32, (c0 + c) % 2 ^ 32, (d0 + d) % 2 ^ 32)

/-- MD5 padding: `0x80`, zeros to 56 mod 64, then the 64-bit bit-length LE. -/
def md5Pad (msg : List Nat) : List Nat :=
  msg ++ 0x80 :: List.replicate ((119 - msg.length % 64) % 64) 0
      ++ leBytes8 (msg.length * 8 % 2 ^ 64)

/-- MD5 digest (16 bytes) of a byte list. -/
def md5Bytes (msg : List Nat) : List Nat :=
  let padded := md5Pad msg
  let (a, b, c, d) := (chunks64 padded.length padded).foldl md5Block
    (0x67452301, 0xefcdab89, 0x98badcfe, 0x10325476)
  leBytes4 a ++ leBytes4 b ++ leBytes4 c ++ leBytes4 d

/-- Model of Python's `md5(s).hexdigest()` on a text string. -/
def md5HexStr (s : String) : String :=
  bytesToHex (md5Bytes (utf8Bytes s))

/-! ## SHA-1 and HMAC-SHA1, used by the signed-hostname rewrite -/

/-- Extend the 16 message words to 80; `acc` holds the words seen so far in
reverse order, `n` counts the remaining extension steps. -/
def sha1Extend : Nat → List Nat → List Nat
  | 0, acc => acc
  | n + 1, acc =>
    let w := rotl32 1 (((acc.getD 2 0 ^^^ acc.getD 7 0) ^^^ acc.getD 13 0) ^^^ acc.getD 15 0)
    sha1Extend n (w :: acc)

/-- One SHA-1 round; `iw` is the round index paired with the schedule word. -/
def sha1Round (st : Nat × Nat × Nat × Nat × Nat) (iw : Nat × Nat) :
    Nat × Nat × Nat × Nat × Nat :=
  let (a, b, c, d, e) := st
  let (i, w) := iw
  let f :=
    if i < 20 then (b &&& c) ||| (not32 b &&& d)
    else if i < 40 then (b ^^^ c) ^^^ d
    else if i < 60 then ((b &&& c) ||| (b &&& d)) ||| (c &&& d)
    else (b ^^^ c) ^^^ d
  let k :=
    if i < 20 then 0x5A827999
    else if i < 40 then 0x6ED9EBA1
    else if i < 60 then 0x8F1BBCDC
    else 0xCA62C1D6
  let t := ((((rotl32 5 a + f) % 2 ^ 32 + e) % 2 ^ 32 + k) % 2 ^ 32 + w) % 2 ^ 32
  (t, a, rotl32 30 b, c, d)

/-- SHA-1 compression of one 64-byte block. -/
def sha1Block (st : Nat × Nat × Nat × Nat × Nat) (block : List Nat) :
    Nat × Nat × Nat × Nat × Nat :=
  let w16 := bytesToWordsBE block
  let ws := (sha1Extend 64 w16.reverse).reverse
  let (h0, h1, h2, h3, h4) := st
  let (a, b, c, d, e) :=
    (((List.range 80).zip ws).foldl sha1Round (h0, h1, h2, h3, h4))
  ((h0 + a) % 2 ^ 32, (h1 + b) % 2 ^ 32, (h2 + c) % 2 ^ 32,
   (h3 + d) % 2 ^ 32, (h4 + e) % 2 ^ 32)

/-- SHA-1 padding: `0x80`, zeros to 56 mod 64, 64-bit bit-length BE. -/
def sha1Pad (msg : List Nat) : List Nat :=
  msg ++ 0x80 :: List.replicate ((119 - msg.length % 64) % 64) 0
      ++ beBytes8 (msg.length * 8 % 2 ^ 64)

/-- SHA-1 digest (20 bytes) of a byte list. -/
def sha1Bytes (msg : List Nat) : List Nat :=
  let padded := sha1Pad msg
  let (h0, h1, h2, h3, h4) := (chunks64 padded.length padded).foldl sha1Block
    (0x67452301, 0xEFCDAB89, 0x98BADCFE, 0x10325476, 0xC3D2E1F0)
  beBytes4 h0 ++ beBytes4 h1 ++ beBytes4 h2 ++ beBytes4 h3 ++ beBytes4 h4

/-- HMAC-SHA1 (RFC 2104) over byte lists, modelling
`hmac.new(key=secret, msg=host, digestmod=sha1)`. -/
def hmacSha1 (key msg : List Nat) : List Nat :=
  let key := if key.length > 64 then sha1Bytes key else key
  let key := key ++ List.replicate (64 - key.length) 0
  sha1Bytes ((key.map (· ^^^ 0x5C)) ++ sha1Bytes ((key.map (· ^^^ 0x36)) ++ msg))

/-- Model of `hmac.new(key, msg, sha1).hexdigest()` on text strings. -/
def hmacSha1HexStr (key msg : String) : String :=
  bytesToHex (hmacSha1 (utf8Bytes key) (utf8Bytes msg))

/-! ## Python-style integer parsing (`int(s)` and `int(s, 16)`) -/

/-- Whitespace stripped by Python's `str.strip()` (ASCII part). -/
def isPyWs (c : Char) : Bool :=
  c = ' ' || c = '\t' || c = '\n' || c = '\r' || c = Char.ofNat 11 || c = Char.ofNat 12

/-- Strip leading and trailing whitespace. -/
def pyStrip (s : String) : List Char :=
  ((s.data.dropWhile isPyWs).reverse.dropWhile isPyWs).reverse

/-- Value of a decimal digit character. -/
def digitVal (c : Char) : Nat := c.toNat - 48

/-- Value of a decimal digit run (most significant first). -/
def digitsVal (ds : List Char) : Nat :=
  ds.foldl (fun a c => a * 10 + digitVal c) 0

/-- Decimal value of a non-empty all-digit character list, else `none`. -/
def decDigitsVal? (cs : List Char) : Option Nat :=
  if cs.isEmpty || !cs.all Char.isDigit then none else some (digitsVal cs)

/-- Model of Python's `int(s)`: optional surrounding whitespace, optional
sign, then at least one decimal digit. -/
def pyIntDec (s : String) : Option Int :=
  let cs := pyStrip s
  if cs.head? = some '-' then (decDigitsVal? cs.tail).map fun n => -(n : Int)
  else if cs.head? = some '+' then (decDigitsVal? cs.tail).map fun n => (n : Int)
  else (decDigitsVal? cs).map fun n => (n : Int)

/-- Value of a hex digit character, else `none`. -/
def hexDigitVal? (c : Char) : Option Nat :=
  if '0' ≤ c ∧ c ≤ '9' then some (c.toNat - 48)
  else if 'a' ≤ c ∧ c ≤ 'f' then some (c.toNat - 87)
  else if 'A' ≤ c ∧ c ≤ 'F' then some (c.toNat - 55)
  else none

/-- Hex value of a non-empty all-hex-digit character list, else `none`. -/
def hexDigitsVal? (cs : List Char) : Option Nat :=
  if cs.isEmpty then none
  else cs.foldlM (fun a c => (hexDigitVal? c).map fun d => a * 16 + d) 0

/-- Strip an optional `0x`/`0X` prefix and read hex digits. -/
def hexNat? (cs : List Char) : Option Nat :=
  if cs.head? = some '0' ∧ (cs.tail.head? = some 'x' ∨ cs.tail.head? = some 'X')
  then hexDigitsVal? cs.tail.tail
  else hexDigitsVal? cs

/-- Model of Python's `int(s, 16)`: optional surrounding whitespace, optional
sign, optional `0x` prefix, then at least one hex digit. -/
def pyIntHex (s : String) : Option Int :=
  let cs := pyStrip s
  if cs.head? = some '-' then (hexNat? cs.tail).map fun n => -(n : Int)
  else if cs.head? = some '+' then (hexNat? cs.tail).map fun n => (n : Int)
  else (hexNat? cs).map fun n => (n : Int)

/-! ## JSON values and the text form used by `HashData`

`HashData.get_json_str` calls `json.dumps` on a five-field dict and
`HashData.create_from_json` calls `json.loads`; both are modelled at the
character level below.  The printer follows `json.dumps` with its defaults
(`ensure_ascii=True`, separators `", "` and `": "`); the dict-literal key
order of the source is used (key order is irrelevant to the parser).  The
parser is a recursive-descent JSON reader; JSON floats, `NaN`/`Infinity`
and lone surrogate escapes (unrepresentable in `Char`) are rejected rather
than parsed, which no claim depends on. -/

inductive Json where
  | str (s : String)
  | int (n : Int)
  | bool (b : Bool)
  | null
  | arr (elems : List Json)
  | obj (fields : List (String × Json))

/-- Four lowercase hex digits of a value below `0x10000`. -/
def toHex4 (n : Nat) : List Char :=
  [hexChar (n / 4096 % 16), hexChar (n / 256 % 16), hexChar (n / 16 % 16), hexChar (n % 16)]

/-- `json.dumps` escaping of one character with `ensure_ascii=True`:
`\"`, `\\`, the short control escapes, printable ASCII verbatim, and
`\uXXXX` (with surrogate pairs above `0xFFFF`) for everything else. -/
def escapeChar (c : Char) : List Char :=
  if c = '"' then ['\\', '"']
  else if c = '\\' then ['\\', '\\']
  else if c.toNat = 8 then ['\\', 'b']
  else if c.toNat = 9 then ['\\', 't']
  else if c.toNat = 10 then ['\\', 'n']
  else if c.toNat = 12 then ['\\', 'f']
  else if c.toNat = 13 then ['\\', 'r']
  else if 0x20 ≤ c.toNat ∧ c.toNat ≤ 0x7E then [c]
  else if c.toNat < 0x10000 then '\\' :: 'u' :: toHex4 c.toNat
  else
    ('\\' :: 'u' :: toHex4 (0xD800 + (c.toNat - 0x10000) / 1024))
      ++ ('\\' :: 'u' :: toHex4 (0xDC00 + (c.toNat - 0x10000) % 1024))

/-- A JSON string literal for `s`, quotes included. -/
def dumpStringChars (s : String) : List Char :=
  '"' :: s.data.flatMap escapeChar ++ ['"']

/-- Decimal digits of a natural number, most significant first; the fuel
dominates the number of digits (callers pass `n + 1`). -/
def natDecAux : Nat → Nat → List Char
  | 0, _ => []
  | fuel + 1, n =>
    if n < 10 then [Char.ofNat (48 + n)]
    else natDecAux fuel (n / 10) ++ [Char.ofNat (48 + n % 10)]

/-- Decimal digits of a natural number. -/
def natDecChars (n : Nat) : List Char := natDecAux (n + 1) n

/-- Decimal form of an integer, as printed by `json.dumps`. -/
def intDecChars (i : Int) : List Char :=
  if i < 0 then '-' :: natDecChars i.natAbs else natDecChars i.natAbs

/-- JSON booleans. -/
def dumpBoolChars (b : Bool) : List Char :=
  if b then ['t', 'r', 'u', 'e'] else ['f', 'a', 'l', 's', 'e']

/-! ## HashData (`sos.origin.HashData`) -/

/-- In-memory representation of the per-container metadata record.  The
constructor coercions of `HashData.__init__` (`unicode(...)`, `int(...)`,
`bool(...)`) live in `create_from_json`, where arbitrary JSON values reach
them. -/
structure HashData where
  account : String
  container : String
  ttl : Int
  cdn_enabled : Bool
  logs_enabled : Bool
deriving DecidableEq

/-- Character form of `HashData.get_json_str`: `json.dumps` of the dict
literal `'account', 'container', 'ttl', 'logs_enabled', 'cdn_enabled'`
(the source's insertion order; the parser is order-insensitive). -/
def getJsonStrChars (h : HashData) : List Char :=
  '{' :: (dumpStringChars "account" ++ ':' :: ' ' :: dumpStringChars h.account
    ++ ',' :: ' ' :: (dumpStringChars "container" ++ ':' :: ' ' :: dumpStringChars h.container
    ++ ',' :: ' ' :: (dumpStringChars "ttl" ++ ':' :: ' ' :: intDecChars h.ttl
    ++ ',' :: ' ' :: (dumpStringChars "logs_enabled" ++ ':' :: ' ' :: dumpBoolChars h.logs_enabled
    ++ ',' :: ' ' :: (dumpStringChars "cdn_enabled" ++ ':' :: ' ' :: dumpBoolChars h.cdn_enabled
    ++ ['}'])))))

/-- Model of `HashData.get_json_str`. -/
def HashData.get_json_str (h : HashData) : String := ⟨getJsonStrChars h⟩

/-! ## JSON parser (`json.loads` model) -/

/-- JSON inter-token whitespace. -/
def isJsonWs (c : Char) : Bool :=
  c = ' ' || c = '\t' || c = '\n' || c = '\r'

/-- Skip inter-token whitespace. -/
def skipWs (cs : List Char) : List Char := cs.dropWhile isJsonWs

/-- Read a digit run as a JSON integer; floats (a following `.`/`e`/`E`)
are rejected rather than modelled. -/
def parseNatRun (cs : List Char) : Option (Nat × List Char) :=
  let ds := cs.takeWhile Char.isDigit
  let rest := cs.dropWhile Char.isDigit
  if ds.isEmpty then none
  else
    match rest with
    | c :: _ => if c = '.' ∨ c = 'e' ∨ c = 'E' then none else some (digitsVal ds, rest)
    | [] => some (digitsVal ds, [])

/-- Read a JSON number (integer only). -/
def parseNumber (cs : List Char) : Option (Json × List Char) :=
  if cs.head? = some '-' then (parseNatRun cs.tail).map fun p => (Json.int (-(p.1 : Int)), p.2)
  else (parseNatRun cs).map fun p => (Json.int (p.1 : Int), p.2)

/-- Read four hex digits. -/
def readHex4 : List Char → Option (Nat × List Char)
  | a :: b :: c :: d :: rest =>
    match hexDigitVal? a, hexDigitVal? b, hexDigitVal? c, hexDigitVal? d with
    | some va, some vb, some vc, some vd =>
      some ((((va * 16 + vb) * 16 + vc) * 16 + vd), rest)
    | _, _, _, _ => none
  | _ => none

/-- After a high surrogate `v`, read a following `\uXXXX` low surrogate and
recombine into the astral codepoint. -/
def readLowSurrogate (v : Nat) : List Char → Option (Nat × List Char)
  | s1 :: s2 :: rest =>
    if s1 = '\\' ∧ s2 = 'u' then
      match readHex4 rest with
      | some (w, rest2) =>
        if 0xDC00 ≤ w ∧ w ≤ 0xDFFF then
          some (0x10000 + (v - 0xD800) * 1024 + (w - 0xDC00), rest2)
        else none
      | none => none
    else none
  | _ => none

/-- Decode the character after a backslash inside a JSON string: the short
escapes, or `\uXXXX` with surrogate-pair recombination.  Lone surrogates
(unrepresentable in `Char`) are rejected. -/
def readEscapeChar : List Char → Option (Char × List Char)
  | [] => none
  | e :: rest =>
    if e = 'u' then
      match readHex4 rest with
      | none => none
      | some (v, rest2) =>
        if v < 0xD800 ∨ 0xDFFF < v then some (Char.ofNat v, rest2)
        else if v < 0xDC00 then
          (readLowSurrogate v rest2).map fun p => (Char.ofNat p.1, p.2)
        else none
    else if e = '"' then some ('"', rest)
    else if e = '\\' then some ('\\', rest)
    else if e = '/' then some ('/', rest)
    else if e = 'b' then some (Char.ofNat 8, rest)
    else if e = 'f' then some (Char.ofNat 12, rest)
    else if e = 'n' then some ('\n', rest)
    else if e = 'r' then some (Char.ofNat 13, rest)
    else if e = 't' then some ('\t', rest)
    else none

/-- Read a JSON string body after the opening quote, returning the decoded
characters and the remainder after the closing quote.  Raw control
characters are rejected (strict mode).  The fuel only bounds the recursion;
one unit is spent per decoded character, so any fuel above the input length
behaves like the unbounded reader. -/
def parseStrBody : Nat → List Char → Option (List Char × List Char)
  | 0, _ => none
  | _ + 1, [] => none
  | fuel + 1, c :: rest =>
    if c = '"' then some ([], rest)
    else if c = '\\' then
      match readEscapeChar rest with
      | some (ch, rest2) => (parseStrBody fuel rest2).map fun p => (ch :: p.1, p.2)
      | none => none
    else if c.toNat < 0x20 then none
    else (parseStrBody fuel rest).map fun p => (c :: p.1, p.2)

/-- Parsing context: a value, the members of an object (accumulated fields
so far), or the elements of an array. -/
inductive PItem where
  | value
  | members (acc : List (String × Json))
  | elems (acc : List Json)

/-- One dispatch step for a JSON value: `objP`/`arrP` continue into an
object or array body, scalars are read in place. -/
def valueStep (objP arrP : List Char → Option (Json × List Char))
    (cs : List Char) : Option (Json × List Char) :=
  match skipWs cs with
  | [] => none
  | c :: rest =>
    if c = '{' then objP rest
    else if c = '[' then arrP rest
    else if c = '"' then
      (parseStrBody (rest.length + 1) rest).map fun p => (Json.str ⟨p.1⟩, p.2)
    else if c = 't' then
      match rest with
      | 'r' :: 'u' :: 'e' :: rest' => some (Json.bool true, rest')
      | _ => none
    else if c = 'f' then
      match rest with
      | 'a' :: 'l' :: 's' :: 'e' :: rest' => some (Json.bool false, rest')
      | _ => none
    else if c = 'n' then
      match rest with
      | 'u' :: 'l' :: 'l' :: rest' => some (Json.null, rest')
      | _ => none
    else parseNumber (c :: rest)

/-- One object-member step: read `"key": value`, then either continue after
a comma via `contP` or close the object. -/
def membersStep (valueP : List Char → Option (Json × List Char))
    (contP : List (String × Json) → List Char → Option (Json × List Char))
    (acc : List (String × Json)) (cs : List Char) : Option (Json × List Char) :=
  match skipWs cs with
  | [] => none
  | c :: rest =>
    if c = '}' then
      if acc.isEmpty then some (Json.obj [], rest) else none
    else if c = '"' then
      match parseStrBody (rest.length + 1) rest with
      | none => none
      | some (k, r1) =>
        match skipWs r1 with
        | ':' :: r2 =>
          match valueP r2 with
          | none => none
          | some (v, r3) =>
            match skipWs r3 with
            | ',' :: r4 => contP (acc ++ [(⟨k⟩, v)]) r4
            | '}' :: r4 => some (Json.obj (acc ++ [(⟨k⟩, v)]), r4)
            | _ => none
        | _ => none
    else none

/-- One array-element step, analogous to `membersStep`. -/
def elemsStep (valueP : List Char → Option (Json × List Char))
    (contP : List Json → List Char → Option (Json × List Char))
    (acc : List Json) (cs : List Char) : Option (Json × List Char) :=
  match skipWs cs with
  | [] => none
  | c :: rest =>
    if c = ']' then
      if acc.isEmpty then some (Json.arr [], rest) else none
    else
      match valueP (c :: rest) with
      | none => none
      | some (v, r1) =>
        match skipWs r1 with
        | ',' :: r2 => contP (acc ++ [v]) r2
        | ']' :: r2 => some (Json.arr (acc ++ [v]), r2)
        | _ => none

/-- Recursive-descent JSON reader.  The fuel only bounds the recursion
(two units per consumed structural character suffice); dispatch is by the
next non-whitespace character. -/
def parseAux : Nat → PItem → List Char → Option (Json × List Char)
  | 0, _, _ => none
  | fuel + 1, .value, cs =>
    valueStep (fun rest => parseAux fuel (.members []) rest)
      (fun rest => parseAux fuel (.elems []) rest) cs
  | fuel + 1, .members acc, cs =>
    membersStep (parseAux fuel .value)
      (fun acc' => parseAux fuel (.members acc')) acc cs
  | fuel + 1, .elems acc, cs =>
    elemsStep (parseAux fuel .value)
      (fun acc' => parseAux fuel (.elems acc')) acc cs

/-- Model of `json.loads`: parse one value and require only whitespace
after it. -/
def json_loads (s : String) : Option Json :=
  match parseAux (2 * s.data.length + 16) .value s.data with
  | some (j, rest) => if (skipWs rest).isEmpty then some j else none
  | none => none

/-! ## `HashData.create_from_json` -/

/-- Lookup in a parsed JSON object; duplicate keys resolve to the last
occurrence, as in a Python dict built by `json.loads`. -/
def objGetLast (fields : List (String × Json)) (k : String) : Option Json :=
  (fields.reverse.find? fun kv => kv.1 == k).map fun kv => kv.2

/-- The `unicode(x, 'utf-8')` coercion applied to a fetched field: JSON
strings pass through, a missing key is a `KeyError`, any other value is a
`TypeError`; all are caught and re-raised as `ValueError`. -/
def pyStrField : Option Json → Except String String
  | some (Json.str s) => Except.ok s
  | some _ => Except.error "Problem loading json: TypeError"
  | none => Except.error "Problem loading json: KeyError"

/-- The `int(x)` coercion applied to a fetched field. -/
def pyIntField : Option Json → Except String Int
  | some (Json.int n) => Except.ok n
  | some (Json.bool b) => Except.ok (if b then 1 else 0)
  | some (Json.str s) =>
    match pyIntDec s with
    | some n => Except.ok n
    | none => Except.error "Problem loading json: ValueError"
  | some _ => Except.error "Problem loading json: TypeError"
  | none => Except.error "Problem loading json: KeyError"

/-- Python truthiness of a JSON value, for the `bool(x)` coercion. -/
def pyTruthyJson : Json → Bool
  | Json.str s => s ≠ ""
  | Json.int n => n ≠ 0
  | Json.bool b => b
  | Json.null => false
  | Json.arr l => !l.isEmpty
  | Json.obj l => !l.isEmpty

/-- The `bool(x)` coercion applied to a fetched field. -/
def pyBoolField : Option Json → Except String Bool
  | some j => Except.ok (pyTruthyJson j)
  | none => Except.error "Problem loading json: KeyError"

/-- Model of `HashData.create_from_json`: `json.loads`, then the five dict
lookups and constructor coercions; every `KeyError`/`ValueError`/`TypeError`
is surfaced as a `ValueError` (here: `Except.error`). -/
def HashData.create_from_json (s : String) : Except String HashData :=
  match json_loads s with
  | none => Except.error "Problem loading json: ValueError"
  | some (Json.obj fields) => do
    let account ← pyStrField (objGetLast fields "account")
    let container ← pyStrField (objGetLast fields "container")
    let ttl ← pyIntField (objGetLast fields "ttl")
    let cdn ← pyBoolField (objGetLast fields "cdn_enabled")
    let logs ← pyBoolField (objGetLast fields "logs_enabled")
    Except.ok ⟨account, container, ttl, cdn, logs⟩
  | some _ => Except.error "Problem loading json: TypeError"

/-- The JSON value built by `json.dumps` for a `HashData` dict. -/
def jsonOfHashData (h : HashData) : Json :=
  Json.obj [("account", Json.str h.account), ("container", Json.str h.container),
    ("ttl", Json.int h.ttl), ("logs_enabled", Json.bool h.logs_enabled),
    ("cdn_enabled", Json.bool h.cdn_enabled)]

/-! ## Configuration (`OriginServer._translate_conf` result and defaults) -/

/-- `swift.common.utils.TRUE_VALUES`, an external dependency of the source:
the strings the middleware treats as true-ish when reading headers and
configuration values (compared after `.lower()`). -/
def TRUE_VALUES : List String := ["true", "1", "yes", "on", "t", "y"]

/-- `CACHE_BAD_URL` from the source: cache lifetime for bad-URL responses. -/
def CACHE_BAD_URL : Nat := 86400

/-- `CACHE_404` from the source: short cache lifetime (negative caching). -/
def CACHE_404 : Nat := 30

/-- `MEMCACHE_TIMEOUT` from the source: long cache lifetime for records. -/
def MEMCACHE_TIMEOUT : Nat := 3600

/-- The configuration snapshot read by the handlers at construction time,
with the defaults of the source.  Counts are modelled as `Nat` (the source
reads them with `int(...)`; a negative shard count is not a meaningful
deployment), TTLs and sizes as `Int`.  The `origin_prefix` key of the
source is spelled `origin_prefix'` here.  `incoming_url_regex` is not
carried: the edge handler model takes the regex-extraction result as an
argument instead. -/
structure Conf where
  hash_path_suffix : String
  origin_account : String := ".origin"
  number_hash_id_containers : Nat := 100
  number_dns_shards : Nat := 100
  hmac_signed_url_secret : Option String := none
  hmac_token_length : Nat := 30
  min_ttl : Int := 900
  max_ttl : Int := 3155692600
  default_ttl : Int := 259200
  delete_enabled : Bool := true
  max_cdn_file_size : Int := 10737418240
  allowed_origin_remote_ips : List String := []
  origin_db_hosts : List String := []
  origin_cdn_host_suffixes : List String := []
  origin_prefix' : String := "/origin/"
  outgoing_url_format : Option (List (String × String)) := none
  outgoing_url_format_head : Option (List (String × String)) := none
  outgoing_url_format_get : Option (List (String × String)) := none
  outgoing_url_format_get_xml : Option (List (String × String)) := none
  outgoing_url_format_get_json : Option (List (String × String)) := none

/-! ## Path utilities (`split_path`, `urllib.quote`) -/

/-- Limit-`n` split of a character list at `sep`, as Python's
`str.split(sep, n)`. -/
def splitLimit (sep : Char) : Nat → List Char → List (List Char)
  | 0, cs => [cs]
  | n + 1, cs =>
    match cs.dropWhile (· ≠ sep) with
    | [] => [cs]
    | _ :: post => cs.takeWhile (· ≠ sep) :: splitLimit sep n post

/-- The returned segments: `segs[1:maxsegs]` padded with `None`. -/
def mkSegs (segs : List (List Char)) (maxsegs : Nat) : List (Option String) :=
  let s := (segs.drop 1).take (maxsegs - 1)
  s.map (fun l => some (String.mk l)) ++ List.replicate (maxsegs - 1 - s.length) none

/-- Model of `sos.origin.split_path` on the decoded text path.  The source
first percent-decodes the raw byte path (`unquote`) and validates UTF-8,
raising `InvalidUtf8`; that byte-level stage sits outside this model, which
receives the decoded path.  `maxsegs0 = 0` stands for the Python default
`None` (both are falsy, giving `maxsegs = minsegs`). -/
def split_path (path : String) (minsegs : Nat) (maxsegs0 : Nat := 0)
    (rest_with_last : Bool := false) : Except String (List (Option String)) :=
  let maxsegs := if maxsegs0 = 0 then minsegs else maxsegs0
  if minsegs > maxsegs then Except.error "minsegs > maxsegs"
  else if rest_with_last then
    let segs := splitLimit '/' maxsegs path.data
    let minsegs := minsegs + 1
    let maxsegs := maxsegs + 1
    let count := segs.length
    if segs.headD [] ≠ [] ∨ count < minsegs ∨ count > maxsegs ∨
        ((segs.drop 1).take (minsegs - 1)).contains [] then
      Except.error "Invalid path"
    else Except.ok (mkSegs segs maxsegs)
  else
    let minsegs := minsegs + 1
    let maxsegs := maxsegs + 1
    let segs := splitLimit '/' maxsegs path.data
    let count := segs.length
    if segs.headD [] ≠ [] ∨ count < minsegs ∨ count > maxsegs + 1 ∨
        ((segs.drop 1).take (minsegs - 1)).contains [] ∨
        (count = maxsegs + 1 ∧ segs.getD maxsegs [] ≠ []) then
      Except.error "Invalid path"
    else Except.ok (mkSegs segs maxsegs)

/-- Byte-level safe set of `urllib.quote` with the default `safe='/'`:
ASCII letters, digits, `_`, `.`, `-` and `/`. -/
def quoteSafeByte (b : Nat) : Bool :=
  (65 ≤ b && b ≤ 90) || (97 ≤ b && b ≤ 122) || (48 ≤ b && b ≤ 57) ||
    b == 95 || b == 46 || b == 45 || b == 47

/-- Model of `urllib.quote(s)` on the UTF-8 bytes of `s`. -/
def pyQuote (s : String) : String :=
  String.mk ((utf8Bytes s).flatMap fun b =>
    if quoteSafeByte b then [Char.ofNat b]
    else ['%', hexCharUpper (b / 16 % 16), hexCharUpper (b % 16)])

/-! ## OriginBase: hashing, sharding, metadata cache, signed URLs -/

/-- Decimal string of an integer (`'%d' % i`). -/
def intDecStr (i : Int) : String := String.mk (intDecChars i)

/-- `OriginBase.hash_path`: hex MD5 of `"/<account>/<container>/<suffix>"`. -/
def hash_path (conf : Conf) (account container : String) : String :=
  md5HexStr ("/" ++ account ++ "/" ++ container ++ "/" ++ conf.hash_path_suffix)

/-- `OriginBase.get_hsh_obj_path`: shard by `int(hsh, 16) mod N` and build
`"/v1/<origin_account>/.hash_<shard>/<hsh>"`; a non-hex key is a
`ValueError`.  `Int.emod` agrees with Python `%` for a positive modulus. -/
def get_hsh_obj_path (conf : Conf) (hsh : String) : Except String String :=
  match pyIntHex hsh with
  | none => Except.error "ValueError: invalid literal for int() with base 16"
  | some n =>
    let hsh_num := n % (conf.number_hash_id_containers : Int)
    Except.ok ("/v1/" ++ conf.origin_account ++ "/.hash_" ++ intDecStr hsh_num
      ++ "/" ++ hsh)

/-- `OriginBase.cdn_data_memcache_key`. -/
def cdn_data_memcache_key (conf : Conf) (cdn_obj_path : String) : String :=
  conf.origin_account ++ "/" ++ cdn_obj_path

/-- Result of one `get_cdn_data` lookup: the record (or `None`), plus the
backend calls and cache writes it performed and whether the invalid-json
warning was logged. -/
structure LookupResult where
  data : Option HashData
  calls : List (String × String)
  cacheSets : List (String × String × Nat)
  warned : Bool
deriving DecidableEq

/-- `OriginBase.get_cdn_data`: the read-through metadata lookup.  `cache`
is the memcache content (`hasCache` false models a request environment
without a cache); `backend` maps `(method, path)` to `(status, body)` for
the authenticated sub-request.  Mirrors the source line by line: the `"404"`
sentinel, the falsy-cached-value miss, the parse-failure miss, and — on a
2xx backend response — the cache write that happens before the body is
parsed. -/
def get_cdn_data (conf : Conf) (hasCache : Bool) (cache : String → Option String)
    (backend : String → String → Nat × String) (cdn_obj_path : String) :
    LookupResult :=
  let memcache_key := cdn_data_memcache_key conf cdn_obj_path
  let fetch : LookupResult :=
    let (status, body) := backend "GET" cdn_obj_path
    let calls := [("GET", cdn_obj_path)]
    if status / 100 = 2 then
      let sets := if hasCache then [(memcache_key, body, MEMCACHE_TIMEOUT)] else []
      match HashData.create_from_json body with
      | Except.ok hd => ⟨some hd, calls, sets, false⟩
      | Except.error _ => ⟨none, calls, sets, true⟩
    else if status = 404 then
      ⟨none, calls, if hasCache then [(memcache_key, "404", CACHE_404)] else [], false⟩
    else ⟨none, calls, [], false⟩
  match (if hasCache then cache memcache_key else none) with
  | some v =>
    if v = "404" then ⟨none, [], [], false⟩
    else if v ≠ "" then
      match HashData.create_from_json v with
      | Except.ok hd => ⟨some hd, [], [], false⟩
      | Except.error _ => fetch
    else fetch
  | none => fetch

/-- Python exceptions that cross the handler models. -/
inductive PyErr where
  | dbFailure (msg : String)
  | valueError (msg : String)
  | invalidConfiguration (msg : String)
  | typeError (msg : String)
deriving DecidableEq

/-- ASCII lowercasing of a string (`str.lower()` on the ASCII range the
middleware handles). -/
def toLowerStr (s : String) : String :=
  String.mk (s.data.map Char.toLower)

/-- Split on a non-empty separator, left to right without overlaps; the
fuel is the input length, enough for every step to consume a character. -/
def splitOnAuxL (sep : List Char) : Nat → List Char → List Char → List (List Char)
  | 0, acc, cs => [acc.reverse ++ cs]
  | _ + 1, acc, [] => [acc.reverse]
  | fuel + 1, acc, c :: cs =>
    if sep.isPrefixOf (c :: cs) then
      acc.reverse :: splitOnAuxL sep fuel [] (List.drop sep.length (c :: cs))
    else splitOnAuxL sep fuel (c :: acc) cs

/-- `str.split(sep)` for a non-empty separator. -/
def splitOnStr (s sep : String) : List String :=
  if sep.data = [] then [s]
  else (splitOnAuxL sep.data s.data.length [] s.data).map String.mk

/-- `sep.join(parts)`. -/
def intercalateStr (sep : String) : List String → String
  | [] => ""
  | [x] => x
  | x :: xs => x ++ sep ++ intercalateStr sep xs

/-- Replace every occurrence of a non-empty pattern, left to right without
overlaps; the fuel is the input length. -/
def replaceList (pat rep : List Char) : Nat → List Char → List Char
  | 0, cs => cs
  | _ + 1, [] => []
  | fuel + 1, c :: cs =>
    if pat.isPrefixOf (c :: cs) then
      rep ++ replaceList pat rep fuel (List.drop pat.length (c :: cs))
    else c :: replaceList pat rep fuel cs

/-- `str.replace(pat, rep)` for the non-empty patterns the templates use. -/
def pyReplace (s pat rep : String) : String :=
  if pat.data = [] then s
  else String.mk (replaceList pat.data rep.data s.data.length s.data)

/-- Scheme and remainder of `scheme://…`, as read by `urlparse` for the
scheme-plus-host URLs the templates render. -/
def url_split_scheme (url : String) : Option (String × String) :=
  match splitOnStr url "://" with
  | [] => none
  | [_] => none
  | s :: rest => some (toLowerStr s, intercalateStr "://" rest)

/-- `urlparse(url).hostname`: the netloc up to `/`, `?` or `#`, after a
userinfo `@`, before a `:port`, lowercased; `none` when absent. -/
def url_hostname (url : String) : Option String :=
  match url_split_scheme url with
  | none => none
  | some (_, rest) =>
    let netloc := rest.data.takeWhile fun c => c ≠ '/' && c ≠ '?' && c ≠ '#'
    let afterAt := (netloc.reverse.takeWhile (· ≠ '@')).reverse
    let host := afterAt.takeWhile (· ≠ ':')
    if host.isEmpty then none else some (String.mk (host.map Char.toLower))

/-- `urlparse(url).scheme` (empty when the URL has no `://`). -/
def url_scheme (url : String) : String :=
  ((url_split_scheme url).map Prod.fst).getD ""

/-- `url % {'hash': …, 'hash_mod': …}` for the two template variables the
source documents (general `%`-formatting such as `%%` is not modelled). -/
def render_template (t hsh : String) (hashMod : Int) : String :=
  pyReplace (pyReplace t "%(hash)s" hsh) "%(hash_mod)s" (intDecStr hashMod)

/-- `.rstrip('/')`. -/
def rstripSlash (s : String) : String :=
  String.mk (s.data.reverse.dropWhile (· = '/')).reverse

/-- `token[:token_length]` (Python slicing caps at the string length). -/
def takeToken (token_length : Nat) (token : String) : String :=
  String.mk (token.data.take token_length)

/-- The per-URL signed-hostname rewrite of `get_cdn_urls`: HMAC-SHA1 the
parsed hostname under the secret, keep the first `token_length` hex
characters, and emit `<scheme>://<token>-<hostname>`.  A URL without a
hostname makes `hmac.new` raise a `TypeError` in the source. -/
def signUrl (secret : String) (token_length : Nat) (url : String) :
    Except PyErr String :=
  match url_hostname url with
  | none => Except.error (PyErr.typeError "hmac message must be a string")
  | some host =>
    Except.ok (url_scheme url ++ "://" ++
      takeToken token_length (hmacSha1HexStr secret host) ++ "-" ++ host)

/-- Sign every rendered URL of a format section. -/
def signAll (secret : String) (token_length : Nat) :
    List (String × String) → Except PyErr (List (String × String))
  | [] => Except.ok []
  | (k, u) :: rest => do
    let u' ← signUrl secret token_length u
    let rest' ← signAll secret token_length rest
    Except.ok ((k, u') :: rest')

/-- The five format sections `_translate_conf` copies from the conf file,
by name. -/
def conf_format_section (conf : Conf) (name : String) :
    Option (List (String × String)) :=
  if name = "outgoing_url_format_head" then conf.outgoing_url_format_head
  else if name = "outgoing_url_format_get" then conf.outgoing_url_format_get
  else if name = "outgoing_url_format_get_xml" then conf.outgoing_url_format_get_xml
  else if name = "outgoing_url_format_get_json" then conf.outgoing_url_format_get_json
  else if name = "outgoing_url_format" then conf.outgoing_url_format
  else none

/-- Python truthiness of a section: present and non-empty. -/
def isTruthySection : Option (List (String × String)) → Bool
  | some (_ :: _) => true
  | _ => false

/-- The precedence walk over
`outgoing_url_format_<method>_<tag>`, `outgoing_url_format_<method>`,
`outgoing_url_format`: first truthy section wins. -/
def findFormatSection (conf : Conf) (request_type request_format_tag : String) :
    Option (List (String × String)) :=
  let names := ["outgoing_url_format_" ++ toLowerStr request_type ++ "_" ++ request_format_tag,
                "outgoing_url_format_" ++ toLowerStr request_type,
                "outgoing_url_format"]
  match names.find? (fun n => isTruthySection (conf_format_section conf n)) with
  | some n => conf_format_section conf n
  | none => none

/-- `OriginBase.get_cdn_urls`: select the format section, render each
template with `hash` and `hash_mod = int(hash,16) mod number_dns_shards`,
strip trailing slashes, and — when `hmac_signed_url_secret` is set —
rewrite each URL with the signed hostname. -/
def get_cdn_urls (conf : Conf) (hsh : String) (request_type : String)
    (request_format_tag : String := "") : Except PyErr (List (String × String)) :=
  match findFormatSection conf request_type request_format_tag with
  | none => Except.error (PyErr.invalidConfiguration "Could not find format")
  | some sect =>
    match pyIntHex hsh with
    | none => Except.error (PyErr.valueError "invalid literal for int() with base 16")
    | some n =>
      let hash_mod := n % (conf.number_dns_shards : Int)
      let cdn_urls := sect.map fun kv =>
        (kv.1, rstripSlash (render_template kv.2 hsh hash_mod))
      match conf.hmac_signed_url_secret with
      | none => Except.ok cdn_urls
      | some secret => signAll secret conf.hmac_token_length cdn_urls

/-! ## OriginDbHandler: DELETE and PUT/POST -/

deriving instance DecidableEq for Except

/-- One handler run over the origin database: the outcome (an HTTP status,
or an uncaught Python exception), the backend calls in order, and the
cache writes and deletes.  `handle_request` catches `OriginDbFailure` and
answers 500; the other exceptions abort the WSGI request, which the server
also surfaces as a 500. -/
structure DbRun where
  outcome : Except PyErr Nat
  calls : List (String × String)
  cacheSets : List (String × String × Nat)
  cacheDeletes : List String
deriving DecidableEq

/-- The status the client sees for a `DbRun` (exceptions become 500). -/
def db_status (r : DbRun) : Nat :=
  match r.outcome with
  | Except.ok s => s
  | Except.error _ => 500

/-- The header overrides read by `origin_db_puts_posts`. -/
structure ReqHeaders where
  x_ttl : Option String := none
  x_cdn_enabled : Option String := none
  x_log_retention : Option String := none
deriving DecidableEq

/-- `OriginDbHandler.origin_db_delete`: cache invalidation, then DELETE of
the hash-shard object and of the listing child; 404s are tolerated, any
other non-2xx raises `OriginDbFailure`; both-404 answers 404, otherwise
204.  `backend` maps `(method, path)` to `(status, body)`. -/
def origin_db_delete (conf : Conf) (path : String) (hasCache : Bool)
    (backend : String → String → Nat × String) : DbRun :=
  if ¬ conf.delete_enabled then
    { outcome := Except.ok 405, calls := [], cacheSets := [], cacheDeletes := [] }
  else
    match split_path path 3 3 false with
    | Except.error _ =>
      { outcome := Except.ok 400, calls := [], cacheSets := [], cacheDeletes := [] }
    | Except.ok segs =>
      let account := (segs.getD 1 none).getD ""
      let container := (segs.getD 2 none).getD ""
      let hsh := hash_path conf account container
      match get_hsh_obj_path conf hsh with
      | Except.error e =>
        { outcome := Except.error (PyErr.valueError e), calls := [],
          cacheSets := [], cacheDeletes := [] }
      | Except.ok cdn_obj_path =>
        let dels := if hasCache then [cdn_data_memcache_key conf cdn_obj_path] else []
        let st1 := (backend "DELETE" cdn_obj_path).1
        let calls := [("DELETE", cdn_obj_path)]
        if st1 / 100 ≠ 2 ∧ st1 ≠ 404 then
          { outcome := Except.error (PyErr.dbFailure "Could not DELETE .hash obj in origin db"),
            calls := calls, cacheSets := [], cacheDeletes := dels }
        else
          let cdn_list_path := pyQuote ("/v1/" ++ conf.origin_account ++ "/"
            ++ account ++ "/" ++ container)
          let st2 := (backend "DELETE" cdn_list_path).1
          let calls := calls ++ [("DELETE", cdn_list_path)]
          if st2 / 100 ≠ 2 ∧ st2 ≠ 404 then
            { outcome := Except.error (PyErr.dbFailure "Could not DELETE listing path in origin db"),
              calls := calls, cacheSets := [], cacheDeletes := dels }
          else if st1 = 404 ∧ st2 = 404 then
            { outcome := Except.ok 404, calls := calls, cacheSets := [],
              cacheDeletes := dels }
          else
            { outcome := Except.ok 204, calls := calls, cacheSets := [],
              cacheDeletes := dels }

/-- `OriginDbHandler.origin_db_puts_posts`: the read-through lookup feeds
the defaults, a POST on an absent record answers 404, the effective
`X-TTL` is validated against `[min_ttl, max_ttl]` (400 outside), then the
serialized record is PUT to the hash shard (with its MD5 ETag), written to
the cache, and the listing container/child are created or updated; the
response is 201 for PUT, 202 for POST, with the `get_cdn_urls` headers. -/
def origin_db_puts_posts (conf : Conf) (method : String) (path : String)
    (hdrs : ReqHeaders) (hasCache : Bool) (cache : String → Option String)
    (backend : String → String → Nat × String) : DbRun :=
  match split_path path 3 3 false with
  | Except.error _ =>
    { outcome := Except.ok 400, calls := [], cacheSets := [], cacheDeletes := [] }
  | Except.ok segs =>
    let account := (segs.getD 1 none).getD ""
    let container := (segs.getD 2 none).getD ""
    let hsh := hash_path conf account container
    match get_hsh_obj_path conf hsh with
    | Except.error e =>
      { outcome := Except.error (PyErr.valueError e), calls := [],
        cacheSets := [], cacheDeletes := [] }
    | Except.ok cdn_obj_path =>
      let lk := get_cdn_data conf hasCache cache backend cdn_obj_path
      let prior : Int × Bool × Bool :=
        match lk.data with
        | some hd => (hd.ttl, hd.cdn_enabled, hd.logs_enabled)
        | none => (conf.default_ttl, true, false)
      if lk.data.isNone ∧ method = "POST" then
        { outcome := Except.ok 404, calls := lk.calls, cacheSets := lk.cacheSets,
          cacheDeletes := [] }
      else
        match (match hdrs.x_ttl with
               | none => some prior.1
               | some s => pyIntDec s) with
        | none =>
          { outcome := Except.ok 400, calls := lk.calls, cacheSets := lk.cacheSets,
            cacheDeletes := [] }
        | some ttl =>
          if ttl < conf.min_ttl ∨ ttl > conf.max_ttl then
            { outcome := Except.ok 400, calls := lk.calls, cacheSets := lk.cacheSets,
              cacheDeletes := [] }
          else
            let logs_enabled : Bool :=
              match hdrs.x_log_retention with
              | some s => TRUE_VALUES.contains (toLowerStr s)
              | none => prior.2.2
            let cdn_enabled : Bool :=
              match hdrs.x_cdn_enabled with
              | some s => TRUE_VALUES.contains (toLowerStr s)
              | none => prior.2.1
            let new_hash_data : HashData :=
              ⟨account, container, ttl, cdn_enabled, logs_enabled⟩
            let cdn_obj_data := new_hash_data.get_json_str
            let _cdn_obj_etag := md5HexStr cdn_obj_data
            let st1 := (backend "PUT" cdn_obj_path).1
            let calls := lk.calls ++ [("PUT", cdn_obj_path)]
            if st1 / 100 ≠ 2 then
              { outcome := Except.error (PyErr.dbFailure "Could not PUT .hash obj in origin db"),
                calls := calls, cacheSets := lk.cacheSets, cacheDeletes := [] }
            else
              let sets := lk.cacheSets ++ (if hasCache then
                [(cdn_data_memcache_key conf cdn_obj_path, cdn_obj_data, MEMCACHE_TIMEOUT)]
                else [])
              let listing_cont_path := pyQuote ("/v1/" ++ conf.origin_account ++ "/" ++ account)
              let st2 := (backend "HEAD" listing_cont_path).1
              let calls := calls ++ [("HEAD", listing_cont_path)]
              let createCalls := if st2 = 404 then [("PUT", listing_cont_path)] else []
              let createFailed := st2 = 404 ∧ (backend "PUT" listing_cont_path).1 / 100 ≠ 2
              let calls := calls ++ createCalls
              if createFailed then
                { outcome := Except.error (PyErr.dbFailure "Could not create listing container in origin db"),
                  calls := calls, cacheSets := sets, cacheDeletes := [] }
              else
                let cdn_list_path := pyQuote ("/v1/" ++ conf.origin_account ++ "/"
                  ++ account ++ "/" ++ container)
                let st4 := (backend method cdn_list_path).1
                let calls := calls ++ [(method, cdn_list_path)]
                if st4 / 100 ≠ 2 then
                  { outcome := Except.error (PyErr.dbFailure "Could not PUT/POST to cdn listing in origin db"),
                    calls := calls, cacheSets := sets, cacheDeletes := [] }
                else
                  match get_cdn_urls conf hsh "HEAD" "" with
                  | Except.error e =>
                    { outcome := Except.error e, calls := calls, cacheSets := sets,
                      cacheDeletes := [] }
                  | Except.ok _ =>
                    { outcome := Except.ok (if method = "POST" then 202 else 201),
                      calls := calls, cacheSets := sets, cacheDeletes := [] }

/-! ## CdnHandler: the public edge request path -/

/-- The backend response fields the edge handler inspects. -/
structure SwiftResp where
  status : Nat
  content_length : Option Int := none
  location : Option String := none
deriving DecidableEq

/-- The shaped edge response: status, the TTL used for the
`Expires`/`Cache-Control` headers, the `Location` header when present,
whether the backend body is streamed through, and its `Content-Length`. -/
structure CdnResponse where
  status : Nat
  cacheTtl : Int
  location : Option String := none
  streamed : Bool := false
  content_length : Option Int := none
deriving DecidableEq

/-- Either a shaped response, or `OriginRequestNotAllowed` (the dispatcher
logs it and falls through to the wrapped application). -/
inductive CdnOutcome where
  | response (r : CdnResponse)
  | notAllowed
deriving DecidableEq

/-- Python 2 orders `None` below every integer, so a missing
`Content-Length` never exceeds `max_cdn_file_size`. -/
def pyNoneGt (cl : Option Int) (m : Int) : Bool :=
  match cl with
  | none => false
  | some v => v > m

/-- `hsh.find('-') >= 0`. -/
def strContainsDash (s : String) : Bool :=
  s.data.any (fun c => c = '-')

/-- `hsh.split('-', 1)[1]`: everything after the first `-` (callers guard
on `hsh.find('-') >= 0`; on a dash-free string this model returns `""`
where Python would raise, a case the guard makes unreachable). -/
def afterFirstDash (s : String) : String :=
  String.mk (s.data.dropWhile (· ≠ '-')).tail

/-- `CdnHandler.handle_request` from the validated hash onward: build the
shard path (a non-hex hash is the 400 bad-URL response), look the record
up through the cache, and — when present and CDN-enabled — forward to the
backing store and shape the response. -/
def cdn_serve (conf : Conf) (method : String) (hsh : String)
    (object_name : Option String) (hasCache : Bool)
    (cache : String → Option String)
    (backend : String → String → Nat × String)
    (swift : String → String → SwiftResp) : CdnOutcome :=
  match get_hsh_obj_path conf hsh with
  | Except.error _ =>
    CdnOutcome.response { status := 400, cacheTtl := (CACHE_BAD_URL : Int) }
  | Except.ok cdn_obj_path =>
    let lk := get_cdn_data conf hasCache cache backend cdn_obj_path
    match lk.data with
    | some hash_data =>
      if hash_data.cdn_enabled then
        let swift_path := pyQuote ("/v1/" ++ hash_data.account ++ "/"
            ++ hash_data.container ++ "/")
          ++ (if object_name.getD "" ≠ "" then object_name.getD "" else "")
        let resp := swift method swift_path
        if resp.status = 301 ∧ resp.location ≠ none then
          CdnOutcome.response
            { status := 301, cacheTtl := hash_data.ttl, location := resp.location }
        else if resp.status = 304 then
          CdnOutcome.response { status := 304, cacheTtl := hash_data.ttl }
        else if resp.status = 416 then
          CdnOutcome.response { status := 416, cacheTtl := (CACHE_404 : Int) }
        else if resp.status = 200 ∨ resp.status = 206 then
          if pyNoneGt resp.content_length conf.max_cdn_file_size then
            CdnOutcome.response { status := 400, cacheTtl := (CACHE_404 : Int) }
          else
            CdnOutcome.response
              { status := resp.status, cacheTtl := hash_data.ttl, streamed := true, content_length := resp.content_length }
        else
          CdnOutcome.response { status := 404, cacheTtl := (CACHE_404 : Int) }
      else
        CdnOutcome.response { status := 404, cacheTtl := (CACHE_404 : Int) }
    | none =>
      CdnOutcome.response { status := 404, cacheTtl := (CACHE_404 : Int) }

/-- `CdnHandler.handle_request` from the hash-extraction result onward.
`envHsh`/`envObj` are `swift.cdn_hash`/`swift.cdn_object_name` from the
request environment; `regexResult` is the named-group result of the first
matching `incoming_url_regex` (the regex engine itself is not modelled);
`swift` maps `(method, path)` to the backend response for the forwarded
request.  Mirrors the source: method gate, remote-IP gate, hash fallback,
token-prefix stripping, shard-path validation, metadata lookup, forwarding
and response shaping. -/
def cdn_handle_request (conf : Conf) (method remote_addr : String)
    (envHsh envObj : Option String)
    (regexResult : Option (Option String × Option String))
    (hasCache : Bool) (cache : String → Option String)
    (backend : String → String → Nat × String)
    (swift : String → String → SwiftResp) : CdnOutcome :=
  if ¬ (method = "GET" ∨ method = "HEAD") then
    CdnOutcome.response { status := 405, cacheTtl := (CACHE_BAD_URL : Int) }
  else if conf.allowed_origin_remote_ips ≠ [] ∧
      ¬ conf.allowed_origin_remote_ips.contains remote_addr then
    CdnOutcome.notAllowed
  else
    let pair : Option String × Option String :=
      if envHsh.isNone ∨ envObj.isNone then
        match regexResult with
        | none => (envHsh, envObj)
        | some (rh, ro) =>
          ((if envHsh.getD "" ≠ "" then envHsh else rh),
           (if envObj.getD "" ≠ "" then envObj else ro))
      else (envHsh, envObj)
    if (pair.1).getD "" = "" then
      CdnOutcome.response { status := 404, cacheTtl := (CACHE_BAD_URL : Int) }
    else
      let hsh0 := (pair.1).getD ""
      let hsh := if strContainsDash hsh0 then afterFirstDash hsh0 else hsh0
      cdn_serve conf method hsh pair.2 hasCache cache backend swift

/-! ## OriginServer dispatcher -/

/-- The handler the dispatcher ends up invoking. -/
inductive SelectedHandler where
  | originDb
  | cdn
  | admin
  | passthrough
deriving DecidableEq

/-- `env.get('HTTP_HOST', '').split(':')[0]`. -/
def stripPort (host : String) : String :=
  String.mk (host.data.takeWhile (· ≠ ':'))

/-- `s.startswith(pre)`. -/
def strStartsWith (s pre : String) : Bool :=
  s.data.take pre.data.length == pre.data

/-- `s.endswith(sfx)`. -/
def strEndsWith (s sfx : String) : Bool :=
  s.data.reverse.take sfx.data.length == sfx.data.reverse

/-- The handler-selection logic of `OriginServer.__call__`: three
non-exclusive `if`s executed in sequence, each overwriting `handler`, so a
later match overrides an earlier one; `passthrough` means the wrapped
application serves the request. -/
def select_handler (conf : Conf) (http_host path_info : String) : SelectedHandler :=
  let host := stripPort http_host
  let h0 : Option SelectedHandler :=
    if conf.origin_db_hosts.contains host then some SelectedHandler.originDb else none
  let h1 : Option SelectedHandler :=
    if conf.origin_cdn_host_suffixes.any (fun sfx => strEndsWith host sfx)
      then some SelectedHandler.cdn else h0
  let h2 : Option SelectedHandler :=
    if strStartsWith path_info conf.origin_prefix' then some SelectedHandler.admin else h1
  h2.getD SelectedHandler.passthrough

/-! ## Serialization round trip (HashData) and hash test vectors -/

/-- Sanity check against the RFC 1321 test vector for the empty message. -/
theorem md5_empty_vector : md5HexStr "" = "d41d8cd98f00b204e9800998ecf8427e" := by
  decide


/-- Sanity check against the RFC 1321 test vector for `"abc"`. -/
theorem md5_abc_vector : md5HexStr "abc" = "900150983cd24fb0d6963f7d28e17f72" := by
  decide


/-- Sanity check against the FIPS 180-1 test vector for `"abc"`. -/
theorem sha1_abc_vector :
    bytesToHex (sha1Bytes (utf8Bytes "abc")) =
      "a9993e364706816aba3e25717850c26c9cd0d89d" := by
  decide


/-- Sanity check against the RFC 2202 HMAC-SHA1 test vector no. 2. -/
theorem hmac_sha1_rfc2202_vector :
    hmacSha1HexStr "Jefe" "what do ya want for nothing?" =
      "effcdf6ae5eb2fa2d27416d5f184df9c259a7c79" := by
  decide


theorem toNat_ofNat_valid (n : Nat) (h : n.isValidChar) : (Char.ofNat n).toNat = n := by
  simp [Char.ofNat, h, Char.ofNatAux, Char.toNat, UInt32.toNat, UInt32.ofNatCore]

theorem char_valid_cases (c : Char) :
    c.toNat < 0xd800 ∨ (0xdfff < c.toNat ∧ c.toNat < 0x110000) := by
  have := c.valid
  simp [UInt32.isValidChar, Nat.isValidChar] at this
  exact this

theorem char_toNat_inj {c d : Char} (h : c.toNat = d.toNat) : c = d := by
  have := congrArg Char.ofNat h
  rwa [Char.ofNat_toNat, Char.ofNat_toNat] at this

theorem hexDigitVal?_hexChar (d : Nat) (h : d < 16) : hexDigitVal? (hexChar d) = some d := by
  interval_cases d <;> decide

theorem readHex4_toHex4 (v : Nat) (hv : v < 0x10000) (rest : List Char) :
    readHex4 (toHex4 v ++ rest) = some (v, rest) := by
  simp only [toHex4, List.cons_append, List.nil_append, readHex4]
  rw [hexDigitVal?_hexChar _ (Nat.mod_lt _ (by omega)),
      hexDigitVal?_hexChar _ (Nat.mod_lt _ (by omega)),
      hexDigitVal?_hexChar _ (Nat.mod_lt _ (by omega)),
      hexDigitVal?_hexChar _ (Nat.mod_lt _ (by omega))]
  simp only [Option.some.injEq, Prod.mk.injEq, and_true]
  omega

theorem readEscapeChar_escape (c : Char) (rest : List Char)
    (h : ¬ (0x20 ≤ c.toNat ∧ c.toNat ≤ 0x7E ∧ c ≠ '"' ∧ c ≠ '\\')) :
    readEscapeChar ((escapeChar c).tail ++ rest) = some (c, rest) := by
  by_cases hq : c = '"'
  · subst hq; simp [escapeChar, readEscapeChar]
  by_cases hb : c = '\\'
  · subst hb; simp [escapeChar, readEscapeChar]
  by_cases h8 : c.toNat = 8
  · have hc : c = Char.ofNat 8 := char_toNat_inj (by rw [h8]; decide)
    subst hc; simp [escapeChar, readEscapeChar]
  by_cases h9 : c.toNat = 9
  · have hc : c = Char.ofNat 9 := char_toNat_inj (by rw [h9]; decide)
    subst hc; simp [escapeChar, readEscapeChar]
  by_cases h10 : c.toNat = 10
  · have hc : c = Char.ofNat 10 := char_toNat_inj (by rw [h10]; decide)
    subst hc; simp [escapeChar, readEscapeChar]
  by_cases h12 : c.toNat = 12
  · have hc : c = Char.ofNat 12 := char_toNat_inj (by rw [h12]; decide)
    subst hc; simp [escapeChar, readEscapeChar]
  by_cases h13 : c.toNat = 13
  · have hc : c = Char.ofNat 13 := char_toNat_inj (by rw [h13]; decide)
    subst hc; simp [escapeChar, readEscapeChar]
  -- remaining: the \uXXXX forms
  have hval := char_valid_cases c
  have hq' : c.toNat ≠ 34 := fun hh => hq (char_toNat_inj (by rw [hh]; decide))
  have hb' : c.toNat ≠ 92 := fun hh => hb (char_toNat_inj (by rw [hh]; decide))
  have hrange : ¬ (0x20 ≤ c.toNat ∧ c.toNat ≤ 0x7E) := by
    intro hr
    exact h ⟨hr.1, hr.2, hq, hb⟩
  by_cases hbmp : c.toNat < 0x10000
  · have hesc : escapeChar c = '\\' :: 'u' :: toHex4 c.toNat := by
      simp only [escapeChar, hq, hb, h8, h9, h10, h12, h13, if_false,
        if_neg hrange, if_pos hbmp]
    rw [hesc]
    simp only [List.tail_cons, List.cons_append, readEscapeChar]
    simp only [if_true, readHex4_toHex4 _ hbmp]
    have hout : c.toNat < 0xD800 ∨ 0xDFFF < c.toNat := by omega
    rw [if_pos hout, Char.ofNat_toNat]
  · have hesc : escapeChar c =
        ('\\' :: 'u' :: toHex4 (0xD800 + (c.toNat - 0x10000) / 1024))
          ++ ('\\' :: 'u' :: toHex4 (0xDC00 + (c.toNat - 0x10000) % 1024)) := by
      simp only [escapeChar, hq, hb, h8, h9, h10, h12, h13, if_false,
        if_neg hrange, if_neg hbmp]
    rw [hesc]
    have h1 : (0xD800 + (c.toNat - 0x10000) / 1024) < 0x10000 := by omega
    have h2 : (0xDC00 + (c.toNat - 0x10000) % 1024) < 0x10000 := by
      have := Nat.mod_lt (c.toNat - 0x10000) (show 0 < 1024 by omega)
      omega
    simp only [List.tail_cons, List.cons_append, List.append_assoc, readEscapeChar]
    simp only [if_true, readHex4_toHex4 _ h1]
    rw [if_neg (by omega), if_pos (by omega)]
    simp only [readLowSurrogate, List.cons_append]
    simp only [if_true, and_self, and_true, true_and, readHex4_toHex4 _ h2]
    rw [if_pos (by constructor <;> omega)]
    have harith : 0x10000 + (0xD800 + (c.toNat - 0x10000) / 1024 - 0xD800) * 1024 +
        (0xDC00 + (c.toNat - 0x10000) % 1024 - 0xDC00) = c.toNat := by omega
    rw [harith]
    simp [Char.ofNat_toNat]

theorem escapeChar_not_plain (c : Char)
    (h : ¬ (0x20 ≤ c.toNat ∧ c.toNat ≤ 0x7E ∧ c ≠ '"' ∧ c ≠ '\\')) :
    escapeChar c = '\\' :: (escapeChar c).tail := by
  unfold escapeChar
  split_ifs with h1 h2 h3 h4 h5 h6 h7 h8 h9
  · rfl
  · rfl
  · rfl
  · rfl
  · rfl
  · rfl
  · rfl
  · exact absurd ⟨h8.1, h8.2, h1, h2⟩ h
  · rfl
  · simp

theorem escapeChar_plain (c : Char)
    (h : 0x20 ≤ c.toNat ∧ c.toNat ≤ 0x7E ∧ c ≠ '"' ∧ c ≠ '\\') :
    escapeChar c = [c] := by
  obtain ⟨hlo, hhi, hq, hb⟩ := h
  simp only [escapeChar, hq, hb, if_false]
  rw [if_neg (by omega), if_neg (by omega), if_neg (by omega),
      if_neg (by omega), if_neg (by omega), if_pos ⟨hlo, hhi⟩]

theorem parseStrBody_escape (cs : List Char) : ∀ (fuel : Nat) (rest : List Char),
    cs.length < fuel →
    parseStrBody fuel (cs.flatMap escapeChar ++ '"' :: rest) = some (cs, rest) := by
  induction cs with
  | nil =>
    intro fuel rest hf
    obtain ⟨f, rfl⟩ : ∃ f, fuel = f + 1 := ⟨fuel - 1, by omega⟩
    simp [parseStrBody]
  | cons c cs ih =>
    intro fuel rest hf
    obtain ⟨f, rfl⟩ : ∃ f, fuel = f + 1 := ⟨fuel - 1, by omega⟩
    rw [List.flatMap_cons, List.append_assoc]
    by_cases hplain : 0x20 ≤ c.toNat ∧ c.toNat ≤ 0x7E ∧ c ≠ '"' ∧ c ≠ '\\'
    · rw [escapeChar_plain c hplain]
      simp only [List.cons_append, List.nil_append, parseStrBody]
      rw [if_neg hplain.2.2.1, if_neg hplain.2.2.2, if_neg (by omega)]
      show Option.map (fun p => (c :: p.1, p.2))
        (parseStrBody f (cs.flatMap escapeChar ++ '"' :: rest)) = some (c :: cs, rest)
      rw [ih f rest (by simp at hf; omega)]
      rfl
    · rw [escapeChar_not_plain c hplain, List.cons_append]
      simp only [parseStrBody]
      rw [if_neg (by decide)]
      simp only [if_true]
      rw [readEscapeChar_escape c _ hplain]
      show Option.map (fun p => (c :: p.1, p.2))
        (parseStrBody f (cs.flatMap escapeChar ++ '"' :: rest)) = some (c :: cs, rest)
      rw [ih f rest (by simp at hf; omega)]
      rfl

theorem digitsVal_append (xs : List Char) (c : Char) :
    digitsVal (xs ++ [c]) = digitsVal xs * 10 + digitVal c := by
  simp [digitsVal, List.foldl_append]

theorem natDecAux_spec : ∀ fuel n, n < fuel →
    natDecAux fuel n ≠ [] ∧ (∀ c ∈ natDecAux fuel n, c.isDigit = true) ∧
      digitsVal (natDecAux fuel n) = n := by
  intro fuel
  induction fuel with
  | zero => omega
  | succ f ih =>
    intro n hn
    by_cases hsmall : n < 10
    · rw [show natDecAux (f + 1) n = [Char.ofNat (48 + n)] by simp [natDecAux, hsmall]]
      interval_cases n <;> refine ⟨by decide, by decide, by decide⟩
    · rw [show natDecAux (f + 1) n = natDecAux f (n / 10) ++ [Char.ofNat (48 + n % 10)]
        by simp [natDecAux, hsmall]]
      obtain ⟨hne, hdig, hval⟩ := ih (n / 10) (by omega)
      refine ⟨by simp, ?_, ?_⟩
      · intro c hc
        rcases List.mem_append.1 hc with h | h
        · exact hdig c h
        · have : c = Char.ofNat (48 + n % 10) := by simpa using h
          subst this
          have h10 : n % 10 < 10 := Nat.mod_lt _ (by omega)
          set k := n % 10 with hk
          clear_value k
          interval_cases k <;> decide
      · rw [digitsVal_append, hval]
        have h10 : n % 10 < 10 := Nat.mod_lt _ (by omega)
        have hv : (Char.ofNat (48 + n % 10)).toNat = 48 + n % 10 :=
          toNat_ofNat_valid _ (by left; omega)
        simp [digitVal, hv]
        omega

theorem natDecChars_spec (n : Nat) :
    natDecChars n ≠ [] ∧ (∀ c ∈ natDecChars n, c.isDigit = true) ∧
      digitsVal (natDecChars n) = n :=
  natDecAux_spec (n + 1) n (by omega)

theorem takeWhile_all_append (p : Char → Bool) (ds r : List Char)
    (hall : ∀ c ∈ ds, p c = true) (hr : ∀ c, r.head? = some c → p c = false) :
    (ds ++ r).takeWhile p = ds ∧ (ds ++ r).dropWhile p = r := by
  induction ds with
  | nil =>
    simp only [List.nil_append]
    cases r with
    | nil => simp
    | cons c r' =>
      have := hr c rfl
      simp [List.takeWhile, List.dropWhile, this]
  | cons d ds ih =>
    have hd : p d = true := hall d (by simp)
    obtain ⟨h1, h2⟩ := ih (fun c hc => hall c (by simp [hc]))
    simp [List.takeWhile, List.dropWhile, hd, h1, h2]

theorem parseNatRun_natDec (n : Nat) (r : List Char)
    (hr : ∀ c, r.head? = some c →
      c.isDigit = false ∧ c ≠ '.' ∧ c ≠ 'e' ∧ c ≠ 'E') :
    parseNatRun (natDecChars n ++ r) = some (n, r) := by
  obtain ⟨hne, hdig, hval⟩ := natDecChars_spec n
  obtain ⟨ht, hd⟩ := takeWhile_all_append Char.isDigit (natDecChars n) r hdig
    (fun c hc => (hr c hc).1)
  simp only [parseNatRun, ht, hd]
  rw [if_neg (by simpa using hne)]
  cases r with
  | nil => simp [hval]
  | cons c r' =>
    obtain ⟨-, h1, h2, h3⟩ := hr c rfl
    simp [h1, h2, h3, hval]

theorem parseNumber_intDec (i : Int) (r : List Char)
    (hr : ∀ c, r.head? = some c →
      c.isDigit = false ∧ c ≠ '.' ∧ c ≠ 'e' ∧ c ≠ 'E') :
    parseNumber (intDecChars i ++ r) = some (Json.int i, r) := by
  obtain ⟨hne, hdig, -⟩ := natDecChars_spec i.natAbs
  by_cases hneg : i < 0
  · simp only [intDecChars, if_pos hneg, List.cons_append, parseNumber]
    simp only [List.head?_cons, Option.some.injEq, if_pos rfl]
    rw [List.tail_cons, parseNatRun_natDec _ _ hr]
    have hni : -(i.natAbs : Int) = i := by omega
    show some (Json.int (-(i.natAbs : Int)), r) = some (Json.int i, r)
    rw [hni]
  · simp only [intDecChars, if_neg hneg]
    have hhead : ∃ d ds, natDecChars i.natAbs = d :: ds := by
      cases hnn : natDecChars i.natAbs with
      | nil => exact absurd hnn hne
      | cons d ds => exact ⟨d, ds, rfl⟩
    obtain ⟨d, ds, hdds⟩ := hhead
    have hdd : d.isDigit = true := hdig d (by rw [hdds]; simp)
    have hdne : d ≠ '-' := by
      intro hEq
      rw [hEq] at hdd
      exact absurd hdd (by decide)
    simp only [parseNumber, hdds, List.cons_append, List.head?_cons]
    rw [if_neg (by simpa using hdne)]
    rw [← List.cons_append, ← hdds, parseNatRun_natDec _ _ hr]
    have hni : ((i.natAbs : Int)) = i := by omega
    show some (Json.int ((i.natAbs : Int)), r) = some (Json.int i, r)
    rw [hni]

theorem string_mk_data (s : String) : String.mk s.data = s := rfl

theorem escapeChar_ne_nil (c : Char) : escapeChar c ≠ [] := by
  unfold escapeChar
  split_ifs <;> simp

theorem flatMap_escape_length (cs : List Char) :
    cs.length ≤ (cs.flatMap escapeChar).length := by
  induction cs with
  | nil => simp
  | cons c cs ih =>
    rw [List.flatMap_cons, List.length_append]
    have := escapeChar_ne_nil c
    have : 1 ≤ (escapeChar c).length := by
      cases hc : escapeChar c with
      | nil => exact absurd hc this
      | cons a l => simp
    simp only [List.length_cons]
    omega

theorem dumpStringChars_append (s : String) (X : List Char) :
    dumpStringChars s ++ X = '"' :: (s.data.flatMap escapeChar ++ ('"' :: X)) := by
  simp [dumpStringChars]

theorem skipWs_quote (X : List Char) : skipWs ('"' :: X) = '"' :: X := by
  simp [skipWs, List.dropWhile, isJsonWs]

theorem parseAux_value_str (f : Nat) (s : String) (rest : List Char) :
    parseAux (f + 1) .value (dumpStringChars s ++ rest) = some (Json.str s, rest) := by
  rw [dumpStringChars_append]
  simp only [parseAux, valueStep, skipWs_quote]
  rw [if_neg (by decide), if_neg (by decide)]
  simp only [if_true]
  rw [parseStrBody_escape s.data _ rest
    (by
      have h1 := flatMap_escape_length s.data
      simp only [List.length_append, List.length_cons]
      omega)]
  simp [string_mk_data]

theorem char_ne_of_toNat_ne {c d : Char} (h : c.toNat ≠ d.toNat) : c ≠ d :=
  fun hEq => h (congrArg Char.toNat hEq)

theorem digit_head_facts (d : Char) (h : 48 ≤ d.toNat ∧ d.toNat ≤ 57) :
    isJsonWs d = false ∧ d ≠ '{' ∧ d ≠ '[' ∧ d ≠ '"' ∧ d ≠ 't' ∧ d ≠ 'f' ∧ d ≠ 'n' := by
  refine ⟨?_, ?_, ?_, ?_, ?_, ?_, ?_⟩
  · simp only [isJsonWs, Bool.or_eq_false_iff, decide_eq_false_iff_not]
    refine ⟨⟨⟨?_, ?_⟩, ?_⟩, ?_⟩ <;> (intro hEq; rw [hEq] at h; revert h; decide)
  all_goals (intro hEq; rw [hEq] at h; revert h; decide)

theorem skipWs_not_ws (c : Char) (X : List Char) (h : isJsonWs c = false) :
    skipWs (c :: X) = c :: X := by
  simp [skipWs, List.dropWhile, h]

theorem parseAux_value_int (f : Nat) (i : Int) (rest : List Char)
    (hr : ∀ c, rest.head? = some c →
      c.isDigit = false ∧ c ≠ '.' ∧ c ≠ 'e' ∧ c ≠ 'E') :
    parseAux (f + 1) .value (intDecChars i ++ rest) = some (Json.int i, rest) := by
  obtain ⟨hne, hdig, -⟩ := natDecChars_spec i.natAbs
  have hhead : ∃ d ds, natDecChars i.natAbs = d :: ds := by
    cases hnn : natDecChars i.natAbs with
    | nil => exact absurd hnn hne
    | cons d ds => exact ⟨d, ds, rfl⟩
  obtain ⟨d, ds, hdds⟩ := hhead
  have hdd : d.isDigit = true := hdig d (by rw [hdds]; simp)
  have hdtoNat : 48 ≤ d.toNat ∧ d.toNat ≤ 57 := by
    unfold Char.isDigit at hdd
    simp at hdd
    exact ⟨hdd.1, hdd.2⟩
  obtain ⟨hnw, hne1, hne2, hne3, hne4, hne5, hne6⟩ := digit_head_facts d hdtoNat
  by_cases hneg : i < 0
  · have hform : intDecChars i ++ rest = '-' :: (natDecChars i.natAbs ++ rest) := by
      simp [intDecChars, hneg]
    have hskip : skipWs ('-' :: (natDecChars i.natAbs ++ rest)) =
        '-' :: (natDecChars i.natAbs ++ rest) := skipWs_not_ws _ _ (by decide)
    rw [hform]
    simp only [parseAux, valueStep, hskip]
    rw [if_neg (by decide), if_neg (by decide), if_neg (by decide),
        if_neg (by decide), if_neg (by decide), if_neg (by decide)]
    rw [show ('-' :: (natDecChars i.natAbs ++ rest)) = intDecChars i ++ rest by
      simp [intDecChars, hneg]]
    exact parseNumber_intDec i rest hr
  · have hform : intDecChars i ++ rest = d :: (ds ++ rest) := by
      simp [intDecChars, hneg, hdds]
    have hskip : skipWs (d :: (ds ++ rest)) = d :: (ds ++ rest) := skipWs_not_ws _ _ hnw
    rw [hform]
    simp only [parseAux, valueStep, hskip]
    rw [if_neg hne1, if_neg hne2, if_neg hne3, if_neg hne4, if_neg hne5, if_neg hne6]
    rw [show (d :: (ds ++ rest)) = intDecChars i ++ rest by
      simp [intDecChars, hneg, hdds]]
    exact parseNumber_intDec i rest hr

theorem parseAux_value_bool (f : Nat) (b : Bool) (rest : List Char) :
    parseAux (f + 1) .value (dumpBoolChars b ++ rest) = some (Json.bool b, rest) := by
  cases b <;>
    simp [dumpBoolChars, parseAux, valueStep, skipWs, List.dropWhile, isJsonWs]

theorem parseAux_value_space (f : Nat) (X : List Char) :
    parseAux (f + 1) .value (' ' :: X) = parseAux (f + 1) .value X := by
  simp only [parseAux, valueStep, skipWs, List.dropWhile]
  rfl

theorem parseAux_members_space (f : Nat) (acc : List (String × Json)) (X : List Char) :
    parseAux (f + 1) (.members acc) (' ' :: X) = parseAux (f + 1) (.members acc) X := by
  simp only [parseAux, membersStep, skipWs, List.dropWhile]
  rfl

theorem parseAux_members_step (f : Nat) (acc : List (String × Json)) (key : String)
    (V T : List Char) (v : Json)
    (hval : parseAux (f + 1) .value (V ++ T) = some (v, T)) :
    parseAux (f + 2) (.members acc)
      (dumpStringChars key ++ (':' :: ' ' :: (V ++ T))) =
      (match skipWs T with
      | ',' :: r4 => parseAux (f + 1) (.members (acc ++ [(key, v)])) r4
      | '}' :: r4 => some (Json.obj (acc ++ [(key, v)]), r4)
      | _ => none) := by
  rw [dumpStringChars_append]
  rw [show f + 2 = (f + 1) + 1 by omega]
  have hstr := parseStrBody_escape key.data
    ((key.data.flatMap escapeChar ++ ('"' :: (':' :: ' ' :: (V ++ T)))).length + 1)
    (':' :: ' ' :: (V ++ T))
    (by
      have h1 := flatMap_escape_length key.data
      simp only [List.length_append, List.length_cons]
      omega)
  have hsk : skipWs (':' :: (' ' :: (V ++ T))) = ':' :: (' ' :: (V ++ T)) :=
    skipWs_not_ws ':' _ (by decide)
  rw [parseAux]
  simp only [membersStep, skipWs_quote]
  rw [if_neg (by decide)]
  simp only [if_true, hstr, hsk, string_mk_data]
  rw [show parseAux (f + 1) PItem.value (' ' :: (V ++ T)) = some (v, T) from
    (parseAux_value_space f (V ++ T)).trans hval]

theorem skipWs_comma (X : List Char) : skipWs (',' :: X) = ',' :: X :=
  skipWs_not_ws _ _ (by decide)

theorem skipWs_rbrace (X : List Char) : skipWs ('}' :: X) = '}' :: X :=
  skipWs_not_ws _ _ (by decide)

theorem skipWs_lbrace (X : List Char) : skipWs ('{' :: X) = '{' :: X :=
  skipWs_not_ws _ _ (by decide)

theorem parseAux_getJsonStr (f : Nat) (h : HashData) :
    parseAux (f + 7) .value (getJsonStrChars h) = some (jsonOfHashData h, []) := by
  have hint : ∀ g, parseAux (g + 1) .value
      (intDecChars h.ttl ++ (',' :: ' ' :: (dumpStringChars "logs_enabled" ++
        (':' :: ' ' :: (dumpBoolChars h.logs_enabled ++
          (',' :: ' ' :: (dumpStringChars "cdn_enabled" ++
            (':' :: ' ' :: (dumpBoolChars h.cdn_enabled ++ ['}']))))))))) =
      some (Json.int h.ttl, ',' :: ' ' :: (dumpStringChars "logs_enabled" ++
        (':' :: ' ' :: (dumpBoolChars h.logs_enabled ++
          (',' :: ' ' :: (dumpStringChars "cdn_enabled" ++
            (':' :: ' ' :: (dumpBoolChars h.cdn_enabled ++ ['}'])))))))) := by
    intro g
    exact parseAux_value_int g h.ttl _ (fun c hc => by
      simp at hc
      subst hc
      refine ⟨by decide, by decide, by decide, by decide⟩)
  rw [show f + 7 = (f + 6) + 1 by omega, parseAux]
  simp only [getJsonStrChars, valueStep, skipWs_lbrace, if_true]
  simp only [List.cons_append, List.append_assoc]
  rw [show f + 6 = (f + 4) + 2 by omega]
  rw [parseAux_members_step (f + 4) [] "account" _ _ _
    (parseAux_value_str (f + 4) h.account _)]
  simp only [skipWs_comma]
  rw [parseAux_members_space]
  rw [show (f + 4) + 1 = (f + 3) + 2 by omega]
  rw [parseAux_members_step (f + 3) _ "container" _ _ _
    (parseAux_value_str (f + 3) h.container _)]
  simp only [skipWs_comma]
  rw [parseAux_members_space]
  rw [show (f + 3) + 1 = (f + 2) + 2 by omega]
  rw [parseAux_members_step (f + 2) _ "ttl" _ _ _ (hint (f + 2))]
  simp only [skipWs_comma]
  rw [parseAux_members_space]
  rw [show (f + 2) + 1 = (f + 1) + 2 by omega]
  rw [parseAux_members_step (f + 1) _ "logs_enabled" _ _ _
    (parseAux_value_bool (f + 1) h.logs_enabled _)]
  simp only [skipWs_comma]
  rw [parseAux_members_space]
  rw [show (f + 1) + 1 = f + 2 by omega]
  rw [parseAux_members_step f _ "cdn_enabled" _ _ _
    (parseAux_value_bool f h.cdn_enabled _)]
  simp only [skipWs_rbrace]
  simp [jsonOfHashData]

theorem json_loads_get_json_str (h : HashData) :
    json_loads (HashData.get_json_str h) = some (jsonOfHashData h) := by
  unfold json_loads HashData.get_json_str
  have hdata : (String.mk (getJsonStrChars h)).data = getJsonStrChars h := rfl
  rw [hdata]
  rw [show 2 * (getJsonStrChars h).length + 16 =
    (2 * (getJsonStrChars h).length + 9) + 7 by omega]
  rw [parseAux_getJsonStr]
  simp [skipWs]

/-- Claim C4: for every metadata record, parsing its serialized text form
yields the record back in all five fields:
`create_from_json (get_json_str r) = r`. -/
theorem claim_C4 (h : HashData) :
    HashData.create_from_json (HashData.get_json_str h) = Except.ok h := by
  unfold HashData.create_from_json
  rw [json_loads_get_json_str]
  simp only [jsonOfHashData]
  simp [objGetLast, pyStrField, pyIntField, pyBoolField, pyTruthyJson, List.find?]
  rfl

theorem hexChar_good (d : Nat) (h : d < 16) :
    (hexDigitVal? (hexChar d)).isSome = true ∧ isPyWs (hexChar d) = false ∧
      hexChar d ≠ '-' ∧ hexChar d ≠ '+' ∧ hexChar d ≠ 'x' ∧ hexChar d ≠ 'X' := by
  interval_cases d <;> decide

theorem dropWhile_all_false {p : Char → Bool} :
    ∀ l : List Char, (∀ c ∈ l, p c = false) → l.dropWhile p = l := by
  intro l h
  cases l with
  | nil => rfl
  | cons c cs => simp [List.dropWhile, h c (by simp)]

theorem pyStrip_no_ws (l : List Char) (h : ∀ c ∈ l, isPyWs c = false) :
    pyStrip (String.mk l) = l := by
  unfold pyStrip
  have h1 : (String.mk l).data = l := rfl
  rw [h1, dropWhile_all_false l h,
    dropWhile_all_false l.reverse (fun c hc => h c (List.mem_reverse.1 hc)),
    List.reverse_reverse]

theorem foldlM_hex_some :
    ∀ (l : List Char), (∀ c ∈ l, (hexDigitVal? c).isSome = true) → ∀ a : Nat,
      ∃ v, List.foldlM (fun a c => (hexDigitVal? c).map fun d => a * 16 + d) a l = some v := by
  intro l
  induction l with
  | nil => exact fun _ a => ⟨a, rfl⟩
  | cons c cs ih =>
    intro h a
    obtain ⟨d, hd⟩ := Option.isSome_iff_exists.1 (h c (by simp))
    obtain ⟨v, hv⟩ := ih (fun x hx => h x (by simp [hx])) (a * 16 + d)
    exact ⟨v, by simp [List.foldlM, hd, hv]⟩

theorem byteHex_good (b : Nat) :
    ∀ c ∈ byteHex b, (hexDigitVal? c).isSome = true ∧ isPyWs c = false ∧
      c ≠ '-' ∧ c ≠ '+' ∧ c ≠ 'x' ∧ c ≠ 'X' := by
  intro c hc
  simp only [byteHex, List.mem_cons, List.not_mem_nil, or_false] at hc
  rcases hc with rfl | rfl <;> exact hexChar_good _ (Nat.mod_lt _ (by omega))

theorem bytesToHex_good (bs : List Nat) :
    ∀ c ∈ (bytesToHex bs).data, (hexDigitVal? c).isSome = true ∧ isPyWs c = false ∧
      c ≠ '-' ∧ c ≠ '+' ∧ c ≠ 'x' ∧ c ≠ 'X' := by
  intro c hc
  have : c ∈ bs.flatMap byteHex := hc
  obtain ⟨b, -, hcb⟩ := List.mem_flatMap.1 this
  exact byteHex_good b c hcb

theorem pyIntHex_all_hex (l : List Char) (hne : l ≠ [])
    (h : ∀ c ∈ l, (hexDigitVal? c).isSome = true ∧ isPyWs c = false ∧
      c ≠ '-' ∧ c ≠ '+' ∧ c ≠ 'x' ∧ c ≠ 'X') :
    ∃ n : Nat, pyIntHex (String.mk l) = some (n : Int) := by
  obtain ⟨c0, cs, rfl⟩ : ∃ c0 cs, l = c0 :: cs := by
    cases l with
    | nil => exact absurd rfl hne
    | cons a as => exact ⟨a, as, rfl⟩
  unfold pyIntHex
  rw [pyStrip_no_ws _ (fun c hc => (h c hc).2.1)]
  simp only [List.head?_cons]
  rw [if_neg (by
    intro hEq
    exact (h c0 (by simp)).2.2.1 (by injection hEq))]
  rw [if_neg (by
    intro hEq
    exact (h c0 (by simp)).2.2.2.1 (by injection hEq))]
  unfold hexNat?
  rw [if_neg (by
    rintro ⟨h0, hx⟩
    cases cs with
    | nil => simp at hx
    | cons c1 cs' =>
      simp only [List.tail_cons, List.head?_cons] at hx
      rcases hx with hx | hx
      · exact (h c1 (by simp)).2.2.2.2.1 (by injection hx)
      · exact (h c1 (by simp)).2.2.2.2.2 (by injection hx))]
  unfold hexDigitsVal?
  rw [if_neg (by simp)]
  obtain ⟨v, hv⟩ := foldlM_hex_some (c0 :: cs) (fun c hc => (h c hc).1) 0
  exact ⟨v, by rw [hv]; rfl⟩

theorem leBytes4_mem (n : Nat) : ∀ b ∈ leBytes4 n, b < 256 := by
  intro b hb
  simp only [leBytes4, List.mem_cons, List.not_mem_nil, or_false] at hb
  rcases hb with rfl | rfl | rfl | rfl <;> exact Nat.mod_lt _ (by omega)

theorem md5Bytes_shape (m : List Nat) :
    md5Bytes m ≠ [] ∧ ∀ b ∈ md5Bytes m, b < 256 := by
  unfold md5Bytes
  rcases hfold : (chunks64 (md5Pad m).length (md5Pad m)).foldl md5Block
    (0x67452301, 0xefcdab89, 0x98badcfe, 0x10325476) with ⟨a, b, c, d⟩
  simp only [hfold]
  refine ⟨by simp [leBytes4], ?_⟩
  intro x hx
  simp only [List.mem_append] at hx
  rcases hx with ((hx | hx) | hx) | hx <;> exact leBytes4_mem _ x hx

theorem md5HexStr_hex (s : String) :
    ∃ n : Nat, pyIntHex (md5HexStr s) = some (n : Int) := by
  obtain ⟨hne, hlt⟩ := md5Bytes_shape (utf8Bytes s)
  have hgood := bytesToHex_good (md5Bytes (utf8Bytes s))
  have hnn : (bytesToHex (md5Bytes (utf8Bytes s))).data ≠ [] := by
    intro hEq
    apply hne
    have : md5Bytes (utf8Bytes s) = [] := by
      cases hmd : md5Bytes (utf8Bytes s) with
      | nil => rfl
      | cons b bs =>
        rw [hmd] at hEq
        have : (byteHex b ++ bs.flatMap byteHex) = [] := hEq
        simp [byteHex] at this
    exact this
  have : md5HexStr s = String.mk (bytesToHex (md5Bytes (utf8Bytes s))).data := rfl
  rw [this]
  exact pyIntHex_all_hex _ hnn hgood

theorem get_hsh_obj_path_hash_path (conf : Conf) (account container : String) :
    ∃ p, get_hsh_obj_path conf (hash_path conf account container) = Except.ok p := by
  obtain ⟨n, hn⟩ := md5HexStr_hex
    ("/" ++ account ++ "/" ++ container ++ "/" ++ conf.hash_path_suffix)
  unfold get_hsh_obj_path hash_path
  rw [hn]
  exact ⟨_, rfl⟩

/-- Claim C1, counterexample: a host that is in `origin_db_hosts` and also
ends with a configured CDN host suffix is routed to the CdnHandler, not the
OriginDbHandler — the dispatcher's later checks overwrite earlier ones. -/
theorem claim_C1_counterexample :
    select_handler { hash_path_suffix := "s", origin_db_hosts := ["db.example.com"], origin_cdn_host_suffixes := ["example.com"] } "db.example.com" "/v1/a/c" = SelectedHandler.cdn ∧
    SelectedHandler.cdn ≠ SelectedHandler.originDb := by
  constructor
  · decide
  · decide

/-- Claim C1, amended: the dispatcher evaluates the three checks in
sequence with each later match overwriting the handler, so the effective
precedence is admin-prefix, then CDN suffix, then DB host; OriginDbHandler
is selected only when the host is a DB host, matches no CDN suffix, and
the path lacks the admin prefix. -/
theorem claim_C1 (conf : Conf) (http_host path_info : String) :
    select_handler conf http_host path_info =
      (if strStartsWith path_info conf.origin_prefix' then SelectedHandler.admin
       else if conf.origin_cdn_host_suffixes.any
           (fun sfx => strEndsWith (stripPort http_host) sfx) then SelectedHandler.cdn
       else if conf.origin_db_hosts.contains (stripPort http_host) then
         SelectedHandler.originDb
       else SelectedHandler.passthrough) := by
  unfold select_handler
  by_cases h1 : stripPort http_host ∈ conf.origin_db_hosts <;>
    by_cases h2 : conf.origin_cdn_host_suffixes.any
      (fun sfx => strEndsWith (stripPort http_host) sfx) <;>
    by_cases h3 : strStartsWith path_info conf.origin_prefix' <;>
    simp [h1, h2, h3]

/-- Claim C5: `hash_path` is exactly the hex MD5 digest of the canonical
string `"/<account>/<container>/<hash_suffix>"`, and it is a pure function
of its inputs: two calls with equal inputs yield equal keys. -/
theorem claim_C5 (conf : Conf) (account container : String) :
    hash_path conf account container =
      md5HexStr ("/" ++ account ++ "/" ++ container ++ "/" ++ conf.hash_path_suffix) ∧
    ∀ account2 container2, account2 = account → container2 = container →
      hash_path conf account2 container2 = hash_path conf account container := by
  refine ⟨rfl, ?_⟩
  intro a2 c2 ha hc
  rw [ha, hc]

/-- Witness for C5 at a concrete configuration and names. -/
theorem claim_C5_witness :
    hash_path { hash_path_suffix := "s" } "acct" "cont" = md5HexStr "/acct/cont/s" ∧
    hash_path { hash_path_suffix := "s" } "a" "c" = "b499c2ac01ea755c78c0765867cb2e60" := by
  constructor
  · exact (claim_C5 { hash_path_suffix := "s" } "acct" "cont").1
  · decide

/-- Claim C6: for a key that parses as hex, `get_hsh_obj_path` shards by
`int(key, 16) mod number_hash_id_containers` — a value in `[0, N)` when
`N > 0` — and returns exactly
`"/v1/<origin_account>/.hash_<shard>/<key>"`; a non-hex key raises
`ValueError`. -/
theorem claim_C6 (conf : Conf) (hsh : String) (n : Int)
    (hN : 0 < conf.number_hash_id_containers)
    (hhex : pyIntHex hsh = some n) :
    get_hsh_obj_path conf hsh =
      Except.ok ("/v1/" ++ conf.origin_account ++ "/.hash_"
        ++ intDecStr (n % (conf.number_hash_id_containers : Int)) ++ "/" ++ hsh) ∧
    0 ≤ n % (conf.number_hash_id_containers : Int) ∧
    n % (conf.number_hash_id_containers : Int) < (conf.number_hash_id_containers : Int) ∧
    (∀ s, pyIntHex s = none → ∃ e, get_hsh_obj_path conf s = Except.error e) := by
  refine ⟨?_, ?_, ?_, ?_⟩
  · unfold get_hsh_obj_path
    rw [hhex]
  · exact Int.emod_nonneg n (by omega)
  · exact Int.emod_lt_of_pos n (by exact_mod_cast hN)
  · intro s hs
    unfold get_hsh_obj_path
    rw [hs]
    exact ⟨_, rfl⟩

/-- Witness for C6: the key `"ff"` with the default 100 hash containers. -/
theorem claim_C6_witness :
    get_hsh_obj_path { hash_path_suffix := "s" } "ff" =
      Except.ok ("/v1/" ++ ".origin" ++ "/.hash_" ++ intDecStr ((255 : Int) % (100 : Nat))
        ++ "/" ++ "ff") ∧
    (0 : Int) ≤ (255 : Int) % ((100 : Nat) : Int) := by
  have h := claim_C6 { hash_path_suffix := "s" } "ff" 255 (by decide) (by decide)
  exact ⟨h.1, h.2.1⟩

/-- Claim C2, counterexample: on a cache miss with a 2xx backend response
whose body is not a parsable record, the lookup still writes the raw body
into the cache with the long TTL (the cache write precedes the parse), so
"no cache write" fails; the warning and the absent result do hold. -/
theorem claim_C2_counterexample :
    get_cdn_data { hash_path_suffix := "s" } true (fun _ => none)
        (fun _ _ => (200, "notjson")) "/v1/.origin/.hash_0/ff" =
      ⟨none, [("GET", "/v1/.origin/.hash_0/ff")],
        [(".origin//v1/.origin/.hash_0/ff", "notjson", 3600)], true⟩ ∧
    [(".origin//v1/.origin/.hash_0/ff", "notjson", 3600)] ≠
      ([] : List (String × String × Nat)) := by
  constructor
  · decide
  · decide

/-- Claim C2, amended: when the backend GET returns 2xx and the body does
not parse as a record, the lookup logs the warning and returns absent —
but the raw body has already been inserted into the cache with the long
TTL (`MEMCACHE_TIMEOUT`), because `get_cdn_data` performs the cache write
before parsing. -/
theorem claim_C2 (conf : Conf) (cache : String → Option String)
    (backend : String → String → Nat × String) (p body : String) (st : Nat)
    (e : String)
    (hmiss : cache (cdn_data_memcache_key conf p) = none)
    (hbk : backend "GET" p = (st, body))
    (h2xx : st / 100 = 2)
    (hparse : HashData.create_from_json body = Except.error e) :
    get_cdn_data conf true cache backend p =
      ⟨none, [("GET", p)], [(cdn_data_memcache_key conf p, body, MEMCACHE_TIMEOUT)],
        true⟩ := by
  unfold get_cdn_data
  simp only [if_true, hmiss, hbk, h2xx, hparse, if_pos]

/-- Witness for C2 at a concrete miss and unparseable body. -/
theorem claim_C2_witness :
    get_cdn_data { hash_path_suffix := "s" } true (fun _ => none)
        (fun _ _ => (200, "nope")) "/v1/p" =
      ⟨none, [("GET", "/v1/p")],
        [(cdn_data_memcache_key { hash_path_suffix := "s" } "/v1/p", "nope",
          MEMCACHE_TIMEOUT)], true⟩ :=
  claim_C2 { hash_path_suffix := "s" } (fun _ => none) (fun _ _ => (200, "nope"))
    "/v1/p" "nope" 200 "Problem loading json: ValueError" rfl rfl (by decide) (by decide)

/-- Claim C7: with deletion enabled, a 404 from either backend DELETE is
tolerated: any other non-2xx raises `OriginDbFailure` (surfaced as 500 by
`handle_request`); both-404 answers not-found, and if at least one delete
succeeds the handler answers no-content. -/
theorem claim_C7 (conf : Conf) (path : String) (hasCache : Bool)
    (backend : String → String → Nat × String)
    (vsn account container objPath : String) (st1 st2 : Nat)
    (hdel : conf.delete_enabled = true)
    (hsplit : split_path path 3 3 false =
      Except.ok [some vsn, some account, some container])
    (hobj : get_hsh_obj_path conf (hash_path conf account container) =
      Except.ok objPath)
    (hb1 : (backend "DELETE" objPath).1 = st1)
    (hb2 : (backend "DELETE" (pyQuote ("/v1/" ++ conf.origin_account ++ "/"
      ++ account ++ "/" ++ container))).1 = st2) :
    ((st1 / 100 ≠ 2 ∧ st1 ≠ 404) →
      (∃ m, (origin_db_delete conf path hasCache backend).outcome =
        Except.error (PyErr.dbFailure m)) ∧
      db_status (origin_db_delete conf path hasCache backend) = 500) ∧
    ((st1 / 100 = 2 ∨ st1 = 404) → (st2 / 100 ≠ 2 ∧ st2 ≠ 404) →
      (∃ m, (origin_db_delete conf path hasCache backend).outcome =
        Except.error (PyErr.dbFailure m)) ∧
      db_status (origin_db_delete conf path hasCache backend) = 500) ∧
    ((st1 = 404 ∧ st2 = 404) →
      (origin_db_delete conf path hasCache backend).outcome = Except.ok 404) ∧
    ((st1 / 100 = 2 ∨ st1 = 404) → (st2 / 100 = 2 ∨ st2 = 404) →
      ¬ (st1 = 404 ∧ st2 = 404) →
      (origin_db_delete conf path hasCache backend).outcome = Except.ok 204) := by
  have hred : origin_db_delete conf path hasCache backend =
      (if st1 / 100 ≠ 2 ∧ st1 ≠ 404 then
        { outcome := Except.error (PyErr.dbFailure "Could not DELETE .hash obj in origin db"),
          calls := [("DELETE", objPath)], cacheSets := [],
          cacheDeletes := if hasCache then [cdn_data_memcache_key conf objPath] else [] }
      else if st2 / 100 ≠ 2 ∧ st2 ≠ 404 then
        { outcome := Except.error (PyErr.dbFailure "Could not DELETE listing path in origin db"),
          calls := [("DELETE", objPath), ("DELETE", pyQuote ("/v1/" ++ conf.origin_account
            ++ "/" ++ account ++ "/" ++ container))], cacheSets := [],
          cacheDeletes := if hasCache then [cdn_data_memcache_key conf objPath] else [] }
      else if st1 = 404 ∧ st2 = 404 then
        { outcome := Except.ok 404,
          calls := [("DELETE", objPath), ("DELETE", pyQuote ("/v1/" ++ conf.origin_account
            ++ "/" ++ account ++ "/" ++ container))], cacheSets := [],
          cacheDeletes := if hasCache then [cdn_data_memcache_key conf objPath] else [] }
      else
        { outcome := Except.ok 204,
          calls := [("DELETE", objPath), ("DELETE", pyQuote ("/v1/" ++ conf.origin_account
            ++ "/" ++ account ++ "/" ++ container))], cacheSets := [],
          cacheDeletes := if hasCache then [cdn_data_memcache_key conf objPath] else [] }) := by
    unfold origin_db_delete
    rw [hdel]
    rw [if_neg (not_not_intro rfl)]
    rw [hsplit]
    simp only [List.getD_cons_succ, List.getD_cons_zero, Option.getD_some]
    rw [hobj]
    simp only [hb1, hb2, List.cons_append, List.nil_append]
  rw [hred]
  refine ⟨?_, ?_, ?_, ?_⟩
  · intro h1
    rw [if_pos h1]
    exact ⟨⟨_, rfl⟩, rfl⟩
  · intro h1 h2
    rw [if_neg (by omega), if_pos h2]
    exact ⟨⟨_, rfl⟩, rfl⟩
  · intro h12
    rw [if_neg (by omega), if_neg (by omega), if_pos h12]
  · intro h1 h2 h3
    rw [if_neg (by omega), if_neg (by omega), if_neg h3]

/-- Witness for C7: both deletes answer 204, so the handler answers 204. -/
theorem claim_C7_witness :
    (origin_db_delete { hash_path_suffix := "s" } "/v1/a/c" false
        (fun _ _ => (204, ""))).outcome = Except.ok 204 :=
  (claim_C7 { hash_path_suffix := "s" } "/v1/a/c" false (fun _ _ => (204, ""))
      "v1" "a" "c" "/v1/.origin/.hash_24/b499c2ac01ea755c78c0765867cb2e60"
      204 204 rfl (by decide) (by decide) rfl rfl).2.2.2
    (Or.inl rfl) (Or.inl rfl) (by decide)

/-- Helper: a read-through lookup issues at most the one backend GET of the
hash object path. -/
theorem get_cdn_data_calls (conf : Conf) (hc : Bool) (cache : String → Option String)
    (backend : String → String → Nat × String) (p : String) :
    (get_cdn_data conf hc cache backend p).calls = [] ∨
    (get_cdn_data conf hc cache backend p).calls = [("GET", p)] := by
  unfold get_cdn_data
  rcases hbk : backend "GET" p with ⟨st, bd⟩
  simp only []
  repeat' split
  all_goals first | exact Or.inl rfl | exact Or.inr rfl

/-- Claim C3, counterexample: a PUT whose `X-TTL` is below `min_ttl` does
answer 400, but when the read-through lookup misses the cache it has
already issued a backend GET, so "without issuing any backend request"
fails. -/
theorem claim_C3_counterexample :
    db_status (origin_db_puts_posts { hash_path_suffix := "s" } "PUT" "/v1/a/c"
      { x_ttl := some "1" } true (fun _ => none) (fun _ _ => (404, ""))) = 400 ∧
    (origin_db_puts_posts { hash_path_suffix := "s" } "PUT" "/v1/a/c"
      { x_ttl := some "1" } true (fun _ => none) (fun _ _ => (404, ""))).calls ≠ [] := by
  constructor
  · decide
  · decide

/-- Claim C3, amended: for a PUT or POST whose `X-TTL` parses to a value
outside `[min_ttl, max_ttl]`, the handler answers 400 — except that a POST
finding no record answers 404 before the TTL check — and in either case it
issues no write: its backend traffic is exactly the read-through lookup's
(at most one GET), because the lookup runs before both checks. -/
theorem claim_C3 (conf : Conf) (method path : String) (hdrs : ReqHeaders)
    (hasCache : Bool) (cache : String → Option String)
    (backend : String → String → Nat × String)
    (vsn account container objPath s : String) (t : Int)
    (_hmeth : method = "PUT" ∨ method = "POST")
    (hsplit : split_path path 3 3 false =
      Except.ok [some vsn, some account, some container])
    (hobj : get_hsh_obj_path conf (hash_path conf account container) =
      Except.ok objPath)
    (hx : hdrs.x_ttl = some s)
    (hparse : pyIntDec s = some t)
    (hrange : t < conf.min_ttl ∨ t > conf.max_ttl) :
    (¬ ((get_cdn_data conf hasCache cache backend objPath).data.isNone = true ∧
        method = "POST") →
      (origin_db_puts_posts conf method path hdrs hasCache cache backend).outcome =
        Except.ok 400) ∧
    ((get_cdn_data conf hasCache cache backend objPath).data.isNone = true ∧
        method = "POST" →
      (origin_db_puts_posts conf method path hdrs hasCache cache backend).outcome =
        Except.ok 404) ∧
    (origin_db_puts_posts conf method path hdrs hasCache cache backend).calls =
      (get_cdn_data conf hasCache cache backend objPath).calls ∧
    ∀ x ∈ (origin_db_puts_posts conf method path hdrs hasCache cache backend).calls,
      x.1 = "GET" := by
  have hred : origin_db_puts_posts conf method path hdrs hasCache cache backend =
      (if (get_cdn_data conf hasCache cache backend objPath).data.isNone = true ∧
          method = "POST" then
        { outcome := Except.ok 404,
          calls := (get_cdn_data conf hasCache cache backend objPath).calls,
          cacheSets := (get_cdn_data conf hasCache cache backend objPath).cacheSets,
          cacheDeletes := [] }
      else
        { outcome := Except.ok 400,
          calls := (get_cdn_data conf hasCache cache backend objPath).calls,
          cacheSets := (get_cdn_data conf hasCache cache backend objPath).cacheSets,
          cacheDeletes := [] }) := by
    unfold origin_db_puts_posts
    rw [hsplit]
    simp only [List.getD_cons_succ, List.getD_cons_zero, Option.getD_some]
    rw [hobj]
    rw [hx]
    simp only [hparse]
    rw [if_pos hrange]
  have hc := get_cdn_data_calls conf hasCache cache backend objPath
  refine ⟨?_, ?_, ?_, ?_⟩
  · intro hcond
    rw [hred, if_neg hcond]
  · intro hcond
    rw [hred, if_pos hcond]
  · rw [hred]
    by_cases hcond : (get_cdn_data conf hasCache cache backend objPath).data.isNone
        = true ∧ method = "POST"
    · rw [if_pos hcond]
    · rw [if_neg hcond]
  · rw [hred]
    by_cases hcond : (get_cdn_data conf hasCache cache backend objPath).data.isNone
        = true ∧ method = "POST"
    · rw [if_pos hcond]
      rcases hc with h | h <;> simp [h]
    · rw [if_neg hcond]
      rcases hc with h | h <;> simp [h]

/-- Witness for C3: a below-range TTL makes a PUT answer 400, and a POST to
the same absent record answer 404, each with only the lookup's GET issued. -/
theorem claim_C3_witness :
    (origin_db_puts_posts { hash_path_suffix := "s" } "PUT" "/v1/a/c"
      { x_ttl := some "1" } false (fun _ => none) (fun _ _ => (404, ""))).outcome =
      Except.ok 400 ∧
    (origin_db_puts_posts { hash_path_suffix := "s" } "POST" "/v1/a/c"
      { x_ttl := some "1" } false (fun _ => none) (fun _ _ => (404, ""))).outcome =
      Except.ok 404 :=
  ⟨(claim_C3 { hash_path_suffix := "s" } "PUT" "/v1/a/c" { x_ttl := some "1" } false
      (fun _ => none) (fun _ _ => (404, "")) "v1" "a" "c"
      "/v1/.origin/.hash_24/b499c2ac01ea755c78c0765867cb2e60" "1" 1
      (Or.inl rfl) (by decide) (by decide) rfl (by decide)
      (Or.inl (by decide))).1 (by decide),
   (claim_C3 { hash_path_suffix := "s" } "POST" "/v1/a/c" { x_ttl := some "1" } false
      (fun _ => none) (fun _ _ => (404, "")) "v1" "a" "c"
      "/v1/.origin/.hash_24/b499c2ac01ea755c78c0765867cb2e60" "1" 1
      (Or.inr rfl) (by decide) (by decide) rfl (by decide)
      (Or.inl (by decide))).2.1 (by decide)⟩

/-- Claim C10: when the backing store answers 200 or 206 without a
`Content-Length`, the size check passes (Python 2 orders `None` below
every integer) and the body is streamed with the limit unenforced. -/
theorem claim_C10 (conf : Conf) (method hsh : String) (objName : Option String)
    (hasCache : Bool) (cache : String → Option String)
    (backend : String → String → Nat × String)
    (swift : String → String → SwiftResp) (objPath : String) (hd : HashData)
    (resp : SwiftResp)
    (hobj : get_hsh_obj_path conf hsh = Except.ok objPath)
    (hlk : (get_cdn_data conf hasCache cache backend objPath).data = some hd)
    (hen : hd.cdn_enabled = true)
    (hsw : swift method (pyQuote ("/v1/" ++ hd.account ++ "/" ++ hd.container ++ "/")
      ++ (if objName.getD "" ≠ "" then objName.getD "" else "")) = resp)
    (hst : resp.status = 200 ∨ resp.status = 206)
    (hcl : resp.content_length = none) :
    cdn_serve conf method hsh objName hasCache cache backend swift =
      CdnOutcome.response
        { status := resp.status, cacheTtl := hd.ttl, streamed := true, content_length := none } := by
  unfold cdn_serve
  rw [hobj]
  simp only []
  rw [hlk]
  simp only [hen]
  rw [if_pos trivial]
  rw [hsw]
  rcases hst with h | h <;> simp [h, hcl, pyNoneGt]

/-- Witness for C10: a 200 backing-store answer with no length streams. -/
theorem claim_C10_witness :
    cdn_serve { hash_path_suffix := "s" } "GET"
      "b499c2ac01ea755c78c0765867cb2e60" none true
      (fun _ => some (HashData.get_json_str ⟨"a", "c", 60, true, false⟩))
      (fun _ _ => (500, "")) (fun _ _ => { status := 200 }) =
      CdnOutcome.response
        { status := 200, cacheTtl := 60, streamed := true, content_length := none } :=
  claim_C10 { hash_path_suffix := "s" } "GET"
    "b499c2ac01ea755c78c0765867cb2e60" none true
    (fun _ => some (HashData.get_json_str ⟨"a", "c", 60, true, false⟩))
    (fun _ _ => (500, "")) (fun _ _ => { status := 200 })
    "/v1/.origin/.hash_24/b499c2ac01ea755c78c0765867cb2e60"
    ⟨"a", "c", 60, true, false⟩ { status := 200 }
    (by decide) (by decide) rfl rfl (Or.inl rfl) rfl

theorem data_append (p t : String) : (p ++ t).data = p.data ++ t.data := rfl

theorem strContainsDash_append (p s : String) :
    strContainsDash (p ++ "-" ++ s) = true := by
  unfold strContainsDash
  simp [data_append]

theorem dashed_ne_empty (p s : String) : ¬ (p ++ "-" ++ s = "") := by
  intro h
  have h2 := strContainsDash_append p s
  rw [h] at h2
  exact absurd h2 (by decide)

theorem dropWhile_dash (l s' : List Char) (h : ∀ c ∈ l, c ≠ '-') :
    (l ++ '-' :: s').dropWhile (fun c => c ≠ '-') = '-' :: s' := by
  induction l with
  | nil => rw [List.nil_append, List.dropWhile_cons, if_neg (by decide)]
  | cons a t ih =>
    have ha : a ≠ '-' := h a (by simp)
    rw [List.cons_append, List.dropWhile_cons, if_pos (decide_eq_true ha)]
    exact ih (fun c hc => h c (List.mem_cons_of_mem a hc))

theorem afterFirstDash_append (p s : String) (hp : strContainsDash p = false) :
    afterFirstDash (p ++ "-" ++ s) = s := by
  have hall : ∀ c ∈ p.data, c ≠ '-' := by
    intro c hc hcd
    have : p.data.any (fun c => c = '-') = true := by
      refine List.any_eq_true.2 ⟨c, hc, ?_⟩
      simp [hcd]
    rw [strContainsDash] at hp
    rw [hp] at this
    exact Bool.noConfusion this
  have hdata : (p ++ "-" ++ s).data = p.data ++ '-' :: s.data := by
    rw [data_append, data_append]
    simp
  unfold afterFirstDash
  rw [hdata, dropWhile_dash p.data s.data hall]
  rfl

/-- The gated form of the edge handler on an explicit environment hash. -/
theorem cdn_handle_request_serve (conf : Conf) (method remote_addr : String)
    (h : String) (envObj : Option String) (hasCache : Bool)
    (cache : String → Option String) (backend : String → String → Nat × String)
    (swift : String → String → SwiftResp) (hsv : String)
    (hne : ¬ (h = ""))
    (hstrip : (if strContainsDash h then afterFirstDash h else h) = hsv) :
    cdn_handle_request conf method remote_addr (some h) envObj none
      hasCache cache backend swift =
    (if ¬ (method = "GET" ∨ method = "HEAD") then
      CdnOutcome.response { status := 405, cacheTtl := (CACHE_BAD_URL : Int) }
    else if conf.allowed_origin_remote_ips ≠ [] ∧
        ¬ conf.allowed_origin_remote_ips.contains remote_addr then
      CdnOutcome.notAllowed
    else cdn_serve conf method hsv envObj hasCache cache backend swift) := by
  unfold cdn_handle_request
  by_cases hm : ¬ (method = "GET" ∨ method = "HEAD")
  · rw [if_pos hm, if_pos hm]
  · rw [if_neg hm, if_neg hm]
    by_cases hip : conf.allowed_origin_remote_ips ≠ [] ∧
        ¬ conf.allowed_origin_remote_ips.contains remote_addr
    · rw [if_pos hip, if_pos hip]
    · rw [if_neg hip, if_neg hip]
      simp only [ite_self, Option.getD_some]
      rw [if_neg hne, hstrip]

/-- Claim C9, amended: the token prefix of a dashed hash is discarded
without verification — any two dash-free prefixes give identical
responses — and when the remainder is itself dash-free and non-empty the
response equals that of the request carrying the bare remainder. -/
theorem claim_C9 (conf : Conf) (method remote_addr : String) (p1 p2 s : String)
    (envObj : Option String) (hasCache : Bool) (cache : String → Option String)
    (backend : String → String → Nat × String) (swift : String → String → SwiftResp)
    (hp1 : strContainsDash p1 = false) (hp2 : strContainsDash p2 = false) :
    (cdn_handle_request conf method remote_addr (some (p1 ++ "-" ++ s)) envObj none
        hasCache cache backend swift =
      cdn_handle_request conf method remote_addr (some (p2 ++ "-" ++ s)) envObj none
        hasCache cache backend swift) ∧
    (strContainsDash s = false → ¬ (s = "") →
      cdn_handle_request conf method remote_addr (some (p1 ++ "-" ++ s)) envObj none
          hasCache cache backend swift =
        cdn_handle_request conf method remote_addr (some s) envObj none
          hasCache cache backend swift) := by
  have h1 := cdn_handle_request_serve conf method remote_addr (p1 ++ "-" ++ s)
    envObj hasCache cache backend swift s (dashed_ne_empty p1 s)
    (by rw [strContainsDash_append, if_pos rfl]; exact afterFirstDash_append p1 s hp1)
  have h2 := cdn_handle_request_serve conf method remote_addr (p2 ++ "-" ++ s)
    envObj hasCache cache backend swift s (dashed_ne_empty p2 s)
    (by rw [strContainsDash_append, if_pos rfl]; exact afterFirstDash_append p2 s hp2)
  refine ⟨h1.trans h2.symm, fun hs hsne => ?_⟩
  have h3 := cdn_handle_request_serve conf method remote_addr s
    envObj hasCache cache backend swift s hsne (by rw [hs]; exact if_neg (by simp))
  exact h1.trans h3.symm

/-- Claim C9, counterexample for the spec's replacement form: stripping is
not idempotent, so replacing the hash `a-b-c` by the substring after its
first dash (`b-c`) changes the response — the second request strips again
and serves `c`. -/
theorem claim_C9_counterexample :
    cdn_handle_request { hash_path_suffix := "s" } "GET" "" (some "a-b-c") none
        none false (fun _ => none) (fun _ _ => (404, ""))
        (fun _ _ => { status := 404 }) =
      CdnOutcome.response { status := 400, cacheTtl := (86400 : Int) } ∧
    cdn_handle_request { hash_path_suffix := "s" } "GET" "" (some "b-c") none
        none false (fun _ => none) (fun _ _ => (404, ""))
        (fun _ _ => { status := 404 }) =
      CdnOutcome.response { status := 404, cacheTtl := (30 : Int) } ∧
    CdnOutcome.response { status := 400, cacheTtl := (86400 : Int) } ≠
      CdnOutcome.response { status := 404, cacheTtl := (30 : Int) } := by
  refine ⟨by decide, by decide, by decide⟩

/-- Witness for C9: an arbitrary dash-free prefix on a bare hex hash gives
the very response of the unprefixed request. -/
theorem claim_C9_witness :
    cdn_handle_request { hash_path_suffix := "s" } "GET" "" (some ("aaaa" ++ "-" ++ "c"))
        none none false (fun _ => none) (fun _ _ => (404, ""))
        (fun _ _ => { status := 404 }) =
      cdn_handle_request { hash_path_suffix := "s" } "GET" "" (some "c") none none
        false (fun _ => none) (fun _ _ => (404, "")) (fun _ _ => { status := 404 }) :=
  (claim_C9 { hash_path_suffix := "s" } "GET" "" "aaaa" "bbbb" "c" none false
      (fun _ => none) (fun _ _ => (404, "")) (fun _ _ => { status := 404 })
      (by decide) (by decide)).2 (by decide) (by decide)

theorem sha1Bytes_length (msg : List Nat) : (sha1Bytes msg).length = 20 := by
  unfold sha1Bytes
  rcases (chunks64 (sha1Pad msg).length (sha1Pad msg)).foldl sha1Block
    (0x67452301, 0xEFCDAB89, 0x98BADCFE, 0x10325476, 0xC3D2E1F0) with ⟨a, b, c, d, e⟩
  simp [beBytes4]

theorem flatMap_byteHex_length (bs : List Nat) :
    (bs.flatMap byteHex).length = 2 * bs.length := by
  induction bs with
  | nil => rfl
  | cons b t ih =>
    simp only [List.flatMap_cons, List.length_append, ih, byteHex, List.length_cons]
    simp
    omega

theorem mk_data (l : List Char) : (String.mk l).data = l := rfl

theorem hmacSha1_length (k m : List Nat) : (hmacSha1 k m).length = 20 := by
  unfold hmacSha1
  simp only [sha1Bytes_length]

theorem hmacSha1HexStr_length (key msg : String) :
    (hmacSha1HexStr key msg).data.length = 40 := by
  unfold hmacSha1HexStr bytesToHex
  rw [mk_data, flatMap_byteHex_length, hmacSha1_length]

theorem takeToken_length (L : Nat) (t : String) :
    (takeToken L t).data.length = min L t.data.length := by
  show (t.data.take L).length = min L t.data.length
  exact List.length_take L t.data

theorem signUrl_ok (secret : String) (L : Nat) (u u' : String)
    (h : signUrl secret L u = Except.ok u') :
    ∃ host, url_hostname u = some host ∧
      u' = url_scheme u ++ "://" ++ takeToken L (hmacSha1HexStr secret host)
        ++ "-" ++ host := by
  unfold signUrl at h
  cases hh : url_hostname u with
  | none => simp only [hh] at h; exact Except.noConfusion h
  | some host =>
    simp only [hh] at h
    exact ⟨host, rfl, (Except.ok.inj h).symm⟩

theorem signAll_shape (secret : String) (L : Nat) :
    ∀ (l out : List (String × String)), signAll secret L l = Except.ok out →
    ∀ kv ∈ out, ∃ u host, url_hostname u = some host ∧
      kv.2 = url_scheme u ++ "://" ++ takeToken L (hmacSha1HexStr secret host)
        ++ "-" ++ host := by
  intro l
  induction l with
  | nil =>
    intro out h kv hkv
    rw [signAll] at h
    cases Except.ok.inj h
    exact absurd hkv (by simp)
  | cons a t ih =>
    intro out h kv hkv
    cases hu : signUrl secret L a.2 with
    | error e =>
      rw [signAll, hu] at h
      exact Except.noConfusion h
    | ok u' =>
      cases hr : signAll secret L t with
      | error e =>
        rw [signAll, hu, hr] at h
        exact Except.noConfusion h
      | ok rest' =>
        rw [signAll, hu, hr] at h
        cases Except.ok.inj h
        rcases List.mem_cons.1 hkv with hkv1 | hkv2
        · obtain ⟨host, hh, he⟩ := signUrl_ok secret L a.2 u' hu
          exact ⟨a.2, host, hh, by rw [hkv1]; exact he⟩
        · exact ih rest' hr kv hkv2

/-- Claim C8, amended: with `hmac_signed_url_secret` configured, every URL
`get_cdn_urls` emits is `<scheme>://<token>-<host>` for the parsed host of
the rendered URL, where the token is the first `hmac_token_length`
characters of the 40-character hex HMAC-SHA1 of the host under the secret;
its length is therefore `min hmac_token_length 40`, not always
`hmac_token_length`. -/
theorem claim_C8 (conf : Conf) (hsh request_type request_format_tag secret : String)
    (out : List (String × String))
    (hsec : conf.hmac_signed_url_secret = some secret)
    (hok : get_cdn_urls conf hsh request_type request_format_tag = Except.ok out) :
    ∀ kv ∈ out, ∃ u host, url_hostname u = some host ∧
      kv.2 = url_scheme u ++ "://" ++
        takeToken conf.hmac_token_length (hmacSha1HexStr secret host) ++ "-" ++ host ∧
      (takeToken conf.hmac_token_length (hmacSha1HexStr secret host)).data.length =
        min conf.hmac_token_length 40 := by
  unfold get_cdn_urls at hok
  cases hf : findFormatSection conf request_type request_format_tag with
  | none => rw [hf] at hok; exact Except.noConfusion hok
  | some sect =>
    simp only [hf] at hok
    cases hn : pyIntHex hsh with
    | none => simp only [hn] at hok; exact Except.noConfusion hok
    | some n =>
      simp only [hn, hsec] at hok
      intro kv hkv
      obtain ⟨u, host, hh, he⟩ :=
        signAll_shape secret conf.hmac_token_length _ out hok kv hkv
      refine ⟨u, host, hh, he, ?_⟩
      rw [takeToken_length, hmacSha1HexStr_length]

/-- Claim C8, counterexample to "length equals hmac_token_length": with a
41-character `hmac_token_length` the emitted token is the whole
40-character digest. -/
theorem claim_C8_counterexample :
    get_cdn_urls { hash_path_suffix := "s", outgoing_url_format := some [("X-CDN-URI", "http://cdn.example.com")], hmac_signed_url_secret := some "k", hmac_token_length := 41 } "ff" "GET" "" =
      Except.ok [("X-CDN-URI", "http://96a39ff267afa84b52d5a77b4b01ae27d6f6cb82-cdn.example.com")] ∧
    ("96a39ff267afa84b52d5a77b4b01ae27d6f6cb82" : String).data.length = 40 := by
  constructor
  · decide
  · decide

/-- Witness for C8 at the default 30-character token length. -/
theorem claim_C8_witness :
    ∃ u host, url_hostname u = some host ∧
      ("http://96a39ff267afa84b52d5a77b4b01ae-cdn.example.com" : String) =
        url_scheme u ++ "://" ++ takeToken 30 (hmacSha1HexStr "k" host)
          ++ "-" ++ host ∧
      (takeToken 30 (hmacSha1HexStr "k" host)).data.length = min 30 40 :=
  claim_C8 { hash_path_suffix := "s", outgoing_url_format := some [("X-CDN-URI", "http://cdn.example.com")], hmac_signed_url_secret := some "k" } "ff" "GET" "" "k"
    [("X-CDN-URI", "http://96a39ff267afa84b52d5a77b4b01ae-cdn.example.com")]
    rfl (by decide)
    ("X-CDN-URI", "http://96a39ff267afa84b52d5a77b4b01ae-cdn.example.com")
    (by decide)

end SOS
